import Mathlib

/-!
Verification development for a multi-provider LLM chat gateway.

The Python sources are shallowly embedded:
pure functions become Lean functions, Python dicts/lists/scalars become the
`Value` type below, raised exceptions become `Except.error`, and the network
boundary (the provider SDK call returning a model response) becomes an oracle
function supplied as a parameter.
-/

set_option maxHeartbeats 1000000

namespace Gateway

mutual

/-- JSON-like dynamic values: the shallow embedding of Python scalars, lists
and (string-keyed, insertion-ordered, unique-key) dicts. Floats are carried
by their printed literal (no arithmetic is ever performed on them).
Note Python `bool` is a subclass of `int`; `vBool` is kept separate and the
places where `isinstance(x, int)` matters treat it accordingly. -/
inductive Value where
| vNull : Value
| vBool (b : Bool) : Value
| vInt (n : Int) : Value
| vFloat (lit : String) : Value
| vStr (s : String) : Value
| vList (xs : VList) : Value
| vDict (kvs : VDict) : Value
deriving DecidableEq

inductive VList where
| nil : VList
| cons (hd : Value) (tl : VList) : VList
deriving DecidableEq

inductive VDict where
| nil : VDict
| cons (key : String) (val : Value) (tl : VDict) : VDict
deriving DecidableEq

end

deriving instance DecidableEq for Except

/-- Lookup by key, first match (Python dict access; keys are unique). -/
def VDict.get : VDict → String → Option Value
| .nil, _ => none
| .cons k v tl, key => if k == key then some v else VDict.get tl key

/-- `key in d` for a Python dict. -/
def VDict.hasKey (d : VDict) (key : String) : Bool :=
  (d.get key).isSome

/-- `d[key] = v` / `\x7b**d, key: v\x7d`: replace in place if present, else append
(Python dict insertion-order semantics). -/
def VDict.set : VDict → String → Value → VDict
| .nil, key, v => .cons key v .nil
| .cons k w tl, key, v =>
    if k == key then .cons k v tl else .cons k w (VDict.set tl key v)

/-- Keep only the entries whose key is in `allowed` (order preserved). -/
def VDict.keepKeys : VDict → List String → VDict
| .nil, _ => .nil
| .cons k v tl, allowed =>
    if allowed.contains k then .cons k v (VDict.keepKeys tl allowed)
    else VDict.keepKeys tl allowed

/-- Number of entries (`len(d)`). -/
def VDict.length : VDict → Nat
| .nil => 0
| .cons _ _ tl => 1 + VDict.length tl

/-- The keys, in order. -/
def VDict.keys : VDict → List String
| .nil => []
| .cons k _ tl => k :: VDict.keys tl

/-- `len(xs)` for a list value. -/
def VList.length : VList → Nat
| .nil => 0
| .cons _ tl => 1 + VList.length tl

/-- Convert a Lean list of values into a `VList`. -/
def vlistOf : List Value → VList
| [] => .nil
| v :: rest => .cons v (vlistOf rest)

/-- Python float truthiness on the carried literal: the zero literals are falsy. -/
def pyFloatIsZero (lit : String) : Bool :=
  lit == "0.0" || lit == "-0.0" || lit == "0" || lit == "-0"

/-- Python truthiness (`bool(x)`). -/
def pyTruthy : Value → Bool
| .vNull => false
| .vBool b => b
| .vInt n => n != 0
| .vFloat lit => !(pyFloatIsZero lit)
| .vStr s => s != ""
| .vList .nil => false
| .vList (.cons _ _) => true
| .vDict .nil => false
| .vDict (.cons _ _ _) => true

/-- `x or \x7b\x7d`: the value itself when truthy, else an empty dict. -/
def orEmptyDict (v : Value) : Value :=
  if pyTruthy v then v else .vDict .nil

mutual

/-- Model of Python `str()` / `repr()` on JSON-like values. Scalars follow
Python exactly; container `repr` is modelled up to string escaping (the code
under verification never stringifies containers through `str`). -/
def pyStr : Value → String
| .vNull => "None"
| .vBool true => "True"
| .vBool false => "False"
| .vInt n => toString n
| .vFloat lit => lit
| .vStr s => s
| .vList xs => "[" ++ String.intercalate ", " (pyReprList xs) ++ "]"
| .vDict kvs => "\x7b" ++ String.intercalate ", " (pyReprDict kvs) ++ "\x7d"

def pyRepr : Value → String
| .vNull => "None"
| .vBool true => "True"
| .vBool false => "False"
| .vInt n => toString n
| .vFloat lit => lit
| .vStr s => "'" ++ s ++ "'"
| .vList xs => "[" ++ String.intercalate ", " (pyReprList xs) ++ "]"
| .vDict kvs => "\x7b" ++ String.intercalate ", " (pyReprDict kvs) ++ "\x7d"

def pyReprList : VList → List String
| .nil => []
| .cons v tl => pyRepr v :: pyReprList tl

def pyReprDict : VDict → List String
| .nil => []
| .cons k v tl => ("'" ++ k ++ "': " ++ pyRepr v) :: pyReprDict tl

end

/-- Four lowercase hex digits, for `\uXXXX` escapes. -/
def hex4 (n : Nat) : String :=
  let dig := fun (m : Nat) => String.singleton (Nat.digitChar (m % 16))
  dig (n / 4096) ++ dig (n / 256) ++ dig (n / 16) ++ dig n

/-- Escape one character as Python `json.dumps` does (with `ensure_ascii`
controlling whether non-ASCII characters become `\uXXXX` escapes). -/
def jsonEscapeChar (ascii : Bool) (c : Char) : String :=
  if c == '"' then "\\\""
  else if c == '\\' then "\\\\"
  else if c == '\n' then "\\n"
  else if c == '\t' then "\\t"
  else if c == '\r' then "\\r"
  else if c == Char.ofNat 8 then "\\b"
  else if c == Char.ofNat 12 then "\\f"
  else if c.toNat < 32 then "\\u" ++ hex4 c.toNat
  else if ascii && c.toNat > 126 then
    if c.toNat < 65536 then "\\u" ++ hex4 c.toNat
    else
      let m := c.toNat - 65536
      "\\u" ++ hex4 (55296 + m / 1024) ++ "\\u" ++ hex4 (56320 + m % 1024)
  else String.singleton c

/-- Escape a string as Python `json.dumps` does. -/
def jsonEscape (ascii : Bool) (s : String) : String :=
  String.join (s.data.map (jsonEscapeChar ascii))

mutual

/-- Model of Python `json.dumps` with default separators; `ascii` is the
`ensure_ascii` flag (`True` by default in Python). -/
def jsonDumps (ascii : Bool) : Value → String
| .vNull => "null"
| .vBool true => "true"
| .vBool false => "false"
| .vInt n => toString n
| .vFloat lit => lit
| .vStr s => "\"" ++ jsonEscape ascii s ++ "\""
| .vList xs => "[" ++ jsonDumpsList ascii xs ++ "]"
| .vDict kvs => "\x7b" ++ jsonDumpsDict ascii kvs ++ "\x7d"

def jsonDumpsList (ascii : Bool) : VList → String
| .nil => ""
| .cons v .nil => jsonDumps ascii v
| .cons v (.cons w tl) => jsonDumps ascii v ++ ", " ++ jsonDumpsList ascii (.cons w tl)

def jsonDumpsDict (ascii : Bool) : VDict → String
| .nil => ""
| .cons k v .nil => "\"" ++ jsonEscape ascii k ++ "\": " ++ jsonDumps ascii v
| .cons k v (.cons k2 w tl) =>
    "\"" ++ jsonEscape ascii k ++ "\": " ++ jsonDumps ascii v ++ ", "
      ++ jsonDumpsDict ascii (.cons k2 w tl)

end

/-! ## Model of `json.loads`

A recursive-descent parser for the JSON grammar accepted by Python's
`json.loads` (strict mode): whitespace is skipped between tokens, the whole
input must be consumed, control characters are rejected inside strings, and
numbers follow the JSON grammar (a fraction or exponent makes a float).
Recursion is fuelled; the fuel is taken larger than the input length, which
every nesting level consumes. -/

def isJsonWs (c : Char) : Bool :=
  c == ' ' || c == '\t' || c == '\n' || c == '\r'

def skipWs : List Char → List Char
| [] => []
| c :: rest => if isJsonWs c then skipWs rest else c :: rest

def isDigitCh (c : Char) : Bool :=
  '0' ≤ c && c ≤ '9'

def digitVal (c : Char) : Nat := c.toNat - 48

/-- Split off a maximal run of decimal digits. -/
def spanDigits : List Char → (List Char × List Char)
| [] => ([], [])
| c :: rest =>
    if isDigitCh c then
      let (ds, rst) := spanDigits rest
      (c :: ds, rst)
    else ([], c :: rest)

def digitsToNat (ds : List Char) : Nat :=
  ds.foldl (fun acc c => acc * 10 + digitVal c) 0

def hexVal (c : Char) : Option Nat :=
  if isDigitCh c then some (digitVal c)
  else if 'a' ≤ c && c ≤ 'f' then some (c.toNat - 87)
  else if 'A' ≤ c && c ≤ 'F' then some (c.toNat - 55)
  else none

/-- Parse a JSON number starting at the input (sign already included).
Returns the value and the rest; follows the JSON grammar
`-?(0|[1-9][0-9]*)(\.[0-9]+)?([eE][+-]?[0-9]+)?`. -/
def parseNumber (cs : List Char) : Option (Value × List Char) :=
  let (neg, cs1) := match cs with
    | '-' :: r => (true, r)
    | _ => (false, cs)
  let intPart : Option (List Char × List Char) := match cs1 with
    | '0' :: r => some (['0'], r)
    | c :: r =>
        if isDigitCh c && c != '0' then
          let (ds, rst) := spanDigits r
          some (c :: ds, rst)
        else none
    | [] => none
  match intPart with
  | none => none
  | some (ids, rest1) =>
    let fracPart : Option (List Char × List Char) := match rest1 with
      | '.' :: r =>
          let (ds, rst) := spanDigits r
          if ds.isEmpty then none else some ('.' :: ds, rst)
      | _ => some ([], rest1)
    match fracPart with
    | none => none
    | some (fds, rest2) =>
      let expPart : Option (List Char × List Char) := match rest2 with
        | 'e' :: '+' :: r =>
            let (ds, rst) := spanDigits r
            if ds.isEmpty then none else some ('e' :: '+' :: ds, rst)
        | 'e' :: '-' :: r =>
            let (ds, rst) := spanDigits r
            if ds.isEmpty then none else some ('e' :: '-' :: ds, rst)
        | 'e' :: r =>
            let (ds, rst) := spanDigits r
            if ds.isEmpty then none else some ('e' :: ds, rst)
        | 'E' :: '+' :: r =>
            let (ds, rst) := spanDigits r
            if ds.isEmpty then none else some ('E' :: '+' :: ds, rst)
        | 'E' :: '-' :: r =>
            let (ds, rst) := spanDigits r
            if ds.isEmpty then none else some ('E' :: '-' :: ds, rst)
        | 'E' :: r =>
            let (ds, rst) := spanDigits r
            if ds.isEmpty then none else some ('E' :: ds, rst)
        | _ => some ([], rest2)
      match expPart with
      | none => none
      | some (eds, rest3) =>
        if fds.isEmpty && eds.isEmpty then
          let n : Int := Int.ofNat (digitsToNat ids)
          some (.vInt (if neg then -n else n), rest3)
        else
          let lit := (if neg then "-" else "") ++ String.mk ids
            ++ String.mk fds ++ String.mk eds
          some (.vFloat lit, rest3)

mutual

/-- Parse a JSON string body (the opening quote already consumed). -/
def parseStringBody : Nat → List Char → Option (String × List Char)
| 0, _ => none
| _ + 1, [] => none
| fuel + 1, c :: rest =>
    if c == '"' then some ("", rest)
    else if c == '\\' then
      match rest with
      | '"' :: r =>
          (parseStringBody fuel r).map (fun p => ("\"" ++ p.1, p.2))
      | '\\' :: r =>
          (parseStringBody fuel r).map (fun p => ("\\" ++ p.1, p.2))
      | '/' :: r =>
          (parseStringBody fuel r).map (fun p => ("/" ++ p.1, p.2))
      | 'n' :: r =>
          (parseStringBody fuel r).map (fun p => ("\n" ++ p.1, p.2))
      | 't' :: r =>
          (parseStringBody fuel r).map (fun p => ("\t" ++ p.1, p.2))
      | 'r' :: r =>
          (parseStringBody fuel r).map (fun p => ("\r" ++ p.1, p.2))
      | 'b' :: r =>
          (parseStringBody fuel r).map
            (fun p => (String.singleton (Char.ofNat 8) ++ p.1, p.2))
      | 'f' :: r =>
          (parseStringBody fuel r).map
            (fun p => (String.singleton (Char.ofNat 12) ++ p.1, p.2))
      | 'u' :: h1 :: h2 :: h3 :: h4 :: r =>
          match hexVal h1, hexVal h2, hexVal h3, hexVal h4 with
          | some a, some b, some c2, some d =>
              let n := a * 4096 + b * 256 + c2 * 16 + d
              (parseStringBody fuel r).map
                (fun p => (String.singleton (Char.ofNat n) ++ p.1, p.2))
          | _, _, _, _ => none
      | _ => none
    else if c.toNat < 32 then none
    else (parseStringBody fuel rest).map (fun p => (String.singleton c ++ p.1, p.2))

/-- Parse one JSON value at the head of the input (no leading whitespace). -/
def parseValue : Nat → List Char → Option (Value × List Char)
| 0, _ => none
| fuel + 1, cs =>
    match cs with
    | 'n' :: 'u' :: 'l' :: 'l' :: rest => some (.vNull, rest)
    | 't' :: 'r' :: 'u' :: 'e' :: rest => some (.vBool true, rest)
    | 'f' :: 'a' :: 'l' :: 's' :: 'e' :: rest => some (.vBool false, rest)
    | '"' :: rest => (parseStringBody fuel rest).map (fun p => (.vStr p.1, p.2))
    | '[' :: rest =>
        (match skipWs rest with
         | ']' :: r => some (.vList .nil, r)
         | r => parseArrayItems fuel r)
    | '\x7b' :: rest =>
        (match skipWs rest with
         | '\x7d' :: r => some (.vDict .nil, r)
         | r => parseObjectItems fuel r)
    | c :: _ => if c == '-' || isDigitCh c then parseNumber cs else none
    | [] => none

/-- Parse the items of a non-empty JSON array, positioned at the first item. -/
def parseArrayItems : Nat → List Char → Option (Value × List Char)
| 0, _ => none
| fuel + 1, cs =>
    match parseValue fuel cs with
    | none => none
    | some (v, rest) =>
      match skipWs rest with
      | ',' :: r =>
          (parseArrayItems fuel (skipWs r)).map
            (fun p => match p.1 with
              | .vList xs => (.vList (.cons v xs), p.2)
              | _ => (p.1, p.2))
      | ']' :: r => some (.vList (.cons v .nil), r)
      | _ => none

/-- Parse the items of a non-empty JSON object, positioned at the first key. -/
def parseObjectItems : Nat → List Char → Option (Value × List Char)
| 0, _ => none
| fuel + 1, cs =>
    match cs with
    | '"' :: rest =>
      (match parseStringBody fuel rest with
       | none => none
       | some (k, rest1) =>
         match skipWs rest1 with
         | ':' :: rest2 =>
           (match parseValue fuel (skipWs rest2) with
            | none => none
            | some (v, rest3) =>
              match skipWs rest3 with
              | ',' :: r =>
                  (parseObjectItems fuel (skipWs r)).map
                    (fun p => match p.1 with
                      | .vDict kvs => (.vDict (.cons k v kvs), p.2)
                      | _ => (p.1, p.2))
              | '\x7d' :: r => some (.vDict (.cons k v .nil), r)
              | _ => none)
         | _ => none)
    | _ => none

end

/-- Model of Python `json.loads`: parse one value, allowing surrounding
whitespace, requiring the whole input to be consumed. -/
def jsonLoads (s : String) : Option Value :=
  match parseValue (s.length + 2) (skipWs s.data) with
  | some (v, rest) => if (skipWs rest).isEmpty then some v else none
  | none => none

/-! ## Paths (`pathlib.PurePosixPath`), for the file-reader access check

`parsePyPath` mirrors `PurePosixPath` construction: spurious slashes and
single dots are collapsed, `..` components are kept. `join` mirrors the `/`
operator: joining an absolute path replaces the base. `parentsList` mirrors
`p.parents`: every strict ancestor, down to the root / the empty path. -/

structure PyPath where
  absFlag : Bool
  comps : List String
deriving DecidableEq

/-- Split a character list on `/` (the semantics of `"".split("/")` /
`str(PurePosixPath)` tokenization, written structurally). -/
def splitSlashAux : List Char → List Char → List String
| acc, [] => [String.mk acc.reverse]
| acc, c :: rest =>
    if c == '/' then String.mk acc.reverse :: splitSlashAux [] rest
    else splitSlashAux (c :: acc) rest

def parsePyPath (s : String) : PyPath :=
  ⟨(match s.data with | '/' :: _ => true | _ => false),
   (splitSlashAux [] s.data).filter (fun c => c != "" && c != ".")⟩

def PyPath.join (p q : PyPath) : PyPath :=
  if q.absFlag then q else ⟨p.absFlag, p.comps ++ q.comps⟩

def PyPath.parentsList (p : PyPath) : List PyPath :=
  (List.range p.comps.length).map (fun n => ⟨p.absFlag, p.comps.take n⟩)

/-- Lexical normalization of `..` components (what resolving the path would
do to it on a filesystem without symlinks); Python's `Path.resolve` does this
plus symlink resolution. Not part of the source: used only to state where an
unnormalized path actually points. -/
def normCompsAux : List String → List String → List String
| acc, [] => acc
| acc, c :: rest =>
    if c == ".." then normCompsAux (acc.dropLast) rest
    else normCompsAux (acc ++ [c]) rest

def PyPath.normalize (p : PyPath) : PyPath :=
  ⟨p.absFlag, normCompsAux [] p.comps⟩

/-- Whether `p` is inside `dir` (equal to it or below it), after no further
normalization. -/
def PyPath.insideDir (p dir : PyPath) : Bool :=
  p.absFlag == dir.absFlag && decide (p.comps.take dir.comps.length = dir.comps)

/-- `FileReader.read`'s path construction and security check
(`src/backend/app/tools/file_reader.py` lines 38-44): join the designated
upload directory with the supplied relative path, then raise
`ValueError("Access denied")` unless the upload directory is among the
(unnormalized) parents of the joined path or equals it. On success the
function goes on to read the joined path; we return that path. -/
def fileReaderCheck (uploadDir : PyPath) (relativePath : String) : Except String PyPath :=
  let p := uploadDir.join (parsePyPath relativePath)
  if ¬ (uploadDir ∈ p.parentsList) ∧ p ≠ uploadDir then .error "Access denied"
  else .ok p

/-! ## The tool registry (`src/backend/app/tools/registry.py`) -/

/-- `ToolSpec`: name, description, JSON-schema parameters, executor. The
executor is an opaque function (the real ones do I/O); a raised exception is
modelled as `Except.error` with the exception's message. -/
structure ToolSpec where
  name : String
  description : String
  parameters : Value
  executor : Value → Except String Value

/-- The registry's `_tools` dict, keyed by `ToolSpec.name` (registration
inserts `self._tools[spec.name] = spec`, so the key is the spec's name). -/
def regLookup (tools : List ToolSpec) (name : String) : Option ToolSpec :=
  tools.find? (fun t => t.name == name)

/-- The loop body of `ToolRegistry.get`: `for n in names: spec =
self._tools.get(n); if spec: out.append(spec)`. A dataclass instance is
always truthy, so a found spec is always appended. -/
def ToolRegistry.getLoop (tools : List ToolSpec) : List String → List ToolSpec
| [] => []
| n :: rest =>
    match regLookup tools n with
    | some spec => spec :: ToolRegistry.getLoop tools rest
    | none => ToolRegistry.getLoop tools rest

/-- `ToolRegistry.get(names)`: `if not names: return []` (covers both `None`
and the empty list), else the lookup loop. -/
def ToolRegistry.get (tools : List ToolSpec) (names : Option (List String)) : List ToolSpec :=
  match names with
  | none => []
  | some ns => if ns.isEmpty then [] else ToolRegistry.getLoop tools ns

/-- `ToolRegistry.runtime_execute(name, args)`: raise
`ValueError("Unknown tool: " + name)` when the name is not registered;
otherwise call the executor on `args or \x7b\x7d`, converting a raised
exception into the JSON string `\x7b"ok": false, "error": str(e)\x7d`, and
stringify the result: `json.dumps` for dicts and lists, `str` otherwise. -/
def runtimeExecute (tools : List ToolSpec) (name : String) (args : Value) : Except String String :=
  match regLookup tools name with
  | none => .error ("Unknown tool: " ++ name)
  | some spec =>
    match spec.executor (orEmptyDict args) with
    | .error e =>
        .ok (jsonDumps true (.vDict (.cons "ok" (.vBool false)
          (.cons "error" (.vStr e) .nil))))
    | .ok result =>
      match result with
      | .vDict kvs => .ok (jsonDumps true (.vDict kvs))
      | .vList xs => .ok (jsonDumps true (.vList xs))
      | r => .ok (pyStr r)

/-! ## The agent dispatcher's message validation
(`src/backend/app/services/agent_router.py` lines 13-19) -/

/-- The filter of `_validate_messages`: `"content" in m and
isinstance(m["content"], (str, int, float))`. Python `bool` is a subclass of
`int`, so boolean contents pass the `isinstance` check. -/
def contentIsScalar (m : VDict) : Bool :=
  match m.get "content" with
  | some (.vStr _) => true
  | some (.vInt _) => true
  | some (.vFloat _) => true
  | some (.vBool _) => true
  | _ => false

/-- The map of `_validate_messages`: `\x7b**m, "content": str(m.get("content",
""))\x7d`. -/
def coerceContent (m : VDict) : VDict :=
  m.set "content" (.vStr (pyStr ((m.get "content").getD (.vStr ""))))

/-- `_validate_messages(messages)`: the list comprehension
`[\x7b**m, "content": str(m.get("content", ""))\x7d for m in messages if
"content" in m and isinstance(m["content"], (str, int, float))]`. -/
def validateMessages (messages : List VDict) : List VDict :=
  (messages.filter contentIsScalar).map coerceContent

/-! ## Gemini agent (`src/backend/app/agents/google_gemini_agent.py`)

The SDK/network boundary is the oracle: a function from the wire messages to
the parsed response (extracted text, extracted function calls, `str(resp)`).
Model construction, logging and tool-declaration advertisement configure what
the model sees and are closed over by the oracle. -/

/-- The keys popped by `_sanitize_jsonschema_for_gemini` at every level. -/
def geminiDeniedKeys : List String :=
  ["additionalProperties", "minimum", "maximum", "exclusiveMinimum",
   "exclusiveMaximum", "minLength", "maxLength", "pattern", "default",
   "format", "examples", "example", "title", "deprecated", "nullable",
   "readOnly", "writeOnly", "minItems", "maxItems", "const", "oneOf",
   "anyOf", "allOf", "$schema", "$id"]

/-- The structural keys `_sanitize_jsonschema_for_gemini` keeps. -/
def geminiAllowedKeys : List String :=
  ["type", "properties", "required", "description", "enum", "items"]

/-- `integer` → `number` coercion on a `type` entry's value
(`if isinstance(s.get("type"), str) and s.get("type") == "integer"`). -/
def coerceIntegerType : Value → Value
| .vStr s => if s == "integer" then .vStr "number" else .vStr s
| v => v

/-- If a surviving `properties` entry's value is not a dict, replace it by an
empty dict (`if "properties" in out and not isinstance(out["properties"],
dict)`). -/
def normalizeProps : VDict → VDict
| .nil => .nil
| .cons k v tl =>
    if k == "properties" then
      match v with
      | .vDict kvs => .cons k (.vDict kvs) (normalizeProps tl)
      | _ => .cons k (.vDict .nil) (normalizeProps tl)
    else .cons k v (normalizeProps tl)

/-- If a surviving `required` entry's value is not a list, replace it by an
empty list (`if "required" in out and not isinstance(out["required"],
list)`). -/
def normalizeRequired : VDict → VDict
| .nil => .nil
| .cons k v tl =>
    if k == "required" then
      match v with
      | .vList xs => .cons k (.vList xs) (normalizeRequired tl)
      | _ => .cons k (.vList .nil) (normalizeRequired tl)
    else .cons k v (normalizeRequired tl)

mutual

/-- `_sanitize_jsonschema_for_gemini(schema)`. On a dict the source pops the
denied keys, coerces a string `type` of `"integer"` to `"number"`, recursively
sanitizes each value of a dict-shaped `properties`, recursively sanitizes
`items` when present, keeps only the allowed structural keys, and finally
normalizes malformed `properties`/`required` shapes; on a list it maps itself
over the elements; scalars pass through. Dict keys are unique and untouched
by every step, so the pop pass and the per-entry transforms commute; here the
pop and the transforms are fused into the single entry walk
`sanitizeGeminiEntries`, followed by the allowed-key filter and the two
normalizations, exactly as in the source order. -/
def sanitizeJsonschemaForGemini : Value → Value
| .vDict kvs =>
    .vDict (normalizeRequired (normalizeProps
      ((sanitizeGeminiEntries kvs).keepKeys geminiAllowedKeys)))
| .vList xs => .vList (sanitizeGeminiList xs)
| v => v

/-- One walk over the dict entries: drop denied keys, otherwise transform
the entry value in place through `transformEntryKV`. -/
def sanitizeGeminiEntries : VDict → VDict
| .nil => .nil
| .cons k v tl =>
    if geminiDeniedKeys.contains k then sanitizeGeminiEntries tl
    else .cons k (transformEntryKV k v) (sanitizeGeminiEntries tl)

/-- The in-place transform of one entry: coerce the `type` entry,
recursively sanitize the values of a dict-shaped `properties` entry,
recursively sanitize an `items` entry, keep everything else unchanged. -/
def transformEntryKV (k : String) (v : Value) : Value :=
  if k == "type" then coerceIntegerType v
  else if k == "properties" then sanitizePropsValue v
  else if k == "items" then sanitizeJsonschemaForGemini v
  else v

/-- Recursively sanitize a dict-shaped `properties` value, leaving other
shapes untouched (`if isinstance(s.get("properties"), dict)`). -/
def sanitizePropsValue : Value → Value
| .vDict ps => .vDict (sanitizeGeminiProps ps)
| w => w

/-- Recursively sanitize each property schema, preserving property names. -/
def sanitizeGeminiProps : VDict → VDict
| .nil => .nil
| .cons k v tl => .cons k (sanitizeJsonschemaForGemini v) (sanitizeGeminiProps tl)

/-- Map the sanitizer over the elements of a list schema. -/
def sanitizeGeminiList : VList → VList
| .nil => .nil
| .cons v tl => .cons (sanitizeJsonschemaForGemini v) (sanitizeGeminiList tl)

end

/-- Whitespace for Python `str.strip()` (the ASCII cases). -/
def isSpaceCh (c : Char) : Bool :=
  c == ' ' || c == '\t' || c == '\n' || c == '\r'
    || c == Char.ofNat 11 || c == Char.ofNat 12

/-- Model of Python `str.strip()`, written structurally on the characters. -/
def pyStrip (s : String) : String :=
  String.mk (((s.data.dropWhile isSpaceCh).reverse.dropWhile isSpaceCh).reverse)

/-- ASCII lowercasing of one character. -/
def lowerCh (c : Char) : Char :=
  if 'A' ≤ c && c ≤ 'Z' then Char.ofNat (c.toNat + 32) else c

/-- Model of Python `str.lower()` (the ASCII cases), structurally. -/
def pyLower (s : String) : String :=
  String.mk (s.data.map lowerCh)

/-- `KeyError`-raising subscript on a dict value (`v[k]`). -/
def pyGetItemD (v : Value) (k : String) : Except String Value :=
  match v with
  | .vDict d =>
      match d.get k with
      | some w => .ok w
      | none => .error ("KeyError: " ++ k)
  | _ => .error "TypeError: object is not subscriptable"

/-- `v[0]` on a list value. -/
def pyGetItem0 (v : Value) : Except String Value :=
  match v with
  | .vList (.cons h _) => .ok h
  | .vList .nil => .error "IndexError: list index out of range"
  | _ => .error "TypeError: object is not subscriptable"

/-- Substring test on character lists, for Python `needle in haystackString`. -/
def listHasSub (needle hay : List Char) : Bool :=
  if needle.isPrefixOf hay then true
  else match hay with
    | [] => needle.isEmpty
    | _ :: rest => listHasSub needle rest

/-- Equality-with-a-string membership over a list value
(`k in [..]` compares each element with the string `k`). -/
def vlistHasStr : VList → String → Bool
| .nil, _ => false
| .cons (.vStr s) tl, k => if s == k then true else vlistHasStr tl k
| .cons _ tl, k => vlistHasStr tl k

/-- Python `k in container`: key test on dicts, substring test on strings,
membership on lists; a `TypeError` otherwise. -/
def pyContainsStr (container : Value) (k : String) : Except String Bool :=
  match container with
  | .vDict d => .ok (d.hasKey k)
  | .vStr s => .ok (listHasSub k.data s.data)
  | .vList xs => .ok (vlistHasStr xs k)
  | _ => .error "TypeError: argument is not iterable"

/-- `len(v)` (`TypeError` on non-sized values). -/
def pyLen : Value → Except String Nat
| .vDict d => .ok d.length
| .vList xs => .ok xs.length
| .vStr s => .ok s.length
| _ => .error "TypeError: object has no len"

/-- `\x7bnext(iter(raw.keys())): next(iter(raw.values()))\x7d`: only a dict has
`.keys()`; anything else raises `AttributeError`. -/
def singleFirstPair : Value → Except String (String × Value)
| .vDict (.cons k v _) => .ok (k, v)
| .vDict .nil => .error "StopIteration"
| _ => .error "AttributeError: object has no attribute keys"

/-- Build a dict from a list of `[key, value]` pairs, inserting in order. -/
def pyPairsToDictAux : VDict → VList → Except String VDict
| acc, .nil => .ok acc
| acc, .cons (.vList (.cons (.vStr k) (.cons v .nil))) tl =>
    pyPairsToDictAux (acc.set k v) tl
| _, .cons _ _ => .error "ValueError: dictionary update sequence"

/-- Build a dict from a list of `[key, value]` pairs. -/
def pyPairsToDict (xs : VList) : Except String VDict :=
  pyPairsToDictAux .nil xs

/-- `dict(v)`: a dict passes through; an iterable of two-element pairs builds
a dict; the empty string builds the empty dict; anything else raises. -/
def pyToDict : Value → Except String VDict
| .vDict d => .ok d
| .vList xs => pyPairsToDict xs
| .vStr s => if s == "" then .ok .nil else .error "ValueError: dictionary update sequence"
| _ => .error "TypeError: object is not iterable"

/-- The inner loop of the Gemini argument projection: `for k in
props.keys(): if k in raw_args: mapped_args[k] = raw_args[k]`. The mapped
dict is built in property-key order; `k in raw_args` and `raw_args[k]`
follow Python semantics on non-dict `raw_args` (substring test, then a
`TypeError` on subscripting). -/
def projectKnown (props : VDict) (raw : Value) : Except String VDict :=
  match props with
  | .nil => .ok .nil
  | .cons k _ tl => do
      let c ← pyContainsStr raw k
      if c then do
        let v ← (match raw with
          | .vDict d =>
              match d.get k with
              | some v => Except.ok v
              | none => Except.error ("KeyError: " ++ k)
          | _ => Except.error "TypeError: string indices must be integers")
        let rest ← projectKnown tl raw
        Except.ok (.cons k v rest)
      else projectKnown tl raw

/-- The Gemini tool loop's argument projection (`tool_agent`, lines 470-488):
with a known spec whose `parameters` is a dict, keep only the returned
arguments whose keys are declared properties; if nothing matched and exactly
one argument was supplied, keep that single supplied key/value pair; with no
usable schema, pass the arguments through via `dict(raw_args)`. -/
def geminiMapArgs (spec : Option ToolSpec) (rawArgs : Value) : Except String VDict :=
  match spec with
  | some sp =>
    match sp.parameters with
    | .vDict params =>
      let props := (params.get "properties").getD (.vDict .nil)
      if pyTruthy props then
        match props with
        | .vDict propsD => do
            let mapped ← projectKnown propsD rawArgs
            if mapped.length == 0 then do
              let n ← pyLen rawArgs
              if n == 1 then do
                let kv ← singleFirstPair rawArgs
                Except.ok (.cons kv.1 kv.2 .nil)
              else Except.ok mapped
            else Except.ok mapped
        | _ => .error "AttributeError: object has no attribute keys"
      else pyToDict rawArgs
    | _ => pyToDict rawArgs
  | none => pyToDict rawArgs

/-- The payload shaping of `_tool_response_part`: a dict passes through, a
list is wrapped as `\x7b"results": ...\x7d`, anything else as
`\x7b"text": str(...)\x7d`, so the response is always a JSON object. -/
def geminiWrapPayload (result : Value) : Value :=
  match result with
  | .vDict kvs => Value.vDict kvs
  | .vList xs => .vDict (.cons "results" (.vList xs) .nil)
  | other => .vDict (.cons "text" (.vStr (pyStr other)) .nil)

/-- `_tool_response_part(name, result)`: wrap a tool result into the Gemini
tool-role message holding one `function_response` part. -/
def toolResponsePart (name : String) (result : Value) : Value :=
  .vDict (.cons "role" (.vStr "tool")
    (.cons "parts" (.vList (.cons (.vDict (.cons "function_response"
      (.vDict (.cons "name" (.vStr name)
        (.cons "response" (geminiWrapPayload result) .nil)))
      .nil)) .nil)) .nil))

/-- One extracted Gemini function call (the output shape of
`_extract_function_calls`: a `\x7b"name": ..., "args": ...\x7d` record; both
fields are dynamic values in the source). -/
structure GCall where
  name : Value
  args : Value
deriving DecidableEq

/-- A parsed Gemini model response at the oracle boundary:
`_safe_text_from_response(resp)`, `_extract_function_calls(resp)` and
`str(resp)`. -/
structure GResp where
  text : Option String
  calls : List GCall
  reprS : String

/-- The observable outcome of one Gemini tool-agent run: the returned text,
the number of `generate_content` rounds, and the tool-result messages that
were appended. -/
structure GRun where
  answer : String
  rounds : Nat
  toolMsgs : List Value
deriving DecidableEq

/-- `fname = (call.get("name") or "").strip()`. -/
def geminiCallName (v : Value) : Except String String :=
  match v with
  | .vStr s => .ok (pyStrip s)
  | w => if pyTruthy w then .error "AttributeError: object has no attribute strip"
         else .ok ""

/-- The Gemini role map `_ALLOWED_ROLES` with default `"user"`. -/
def geminiRoleMap (role : String) : String :=
  if role == "user" then "user"
  else if role == "assistant" then "model"
  else if role == "system" then "user"
  else "user"

/-- `_normalize_messages(messages)`: skip non-dicts; read `role` (lowered,
stripped) and `content` (skipping `None`); map roles onto Gemini's
`user`/`model`; emit `\x7b"role": g_role, "parts": [str(content)]\x7d`. -/
def normalizeGeminiMessages : List Value → List Value
| [] => []
| m :: rest =>
    match m with
    | .vDict d =>
        let role := pyStrip (pyLower (pyStr ((d.get "role").getD (.vStr ""))))
        let content := (d.get "content").getD (.vStr "")
        (match content with
         | .vNull => normalizeGeminiMessages rest
         | c =>
             (Value.vDict (.cons "role" (.vStr (geminiRoleMap role))
               (.cons "parts" (.vList (.cons (.vStr (pyStr c)) .nil)) .nil)))
               :: normalizeGeminiMessages rest)
    | _ => normalizeGeminiMessages rest

/-- `x or y` where `x` models an optional string (`None` or a string). -/
def pyOrElse (t : Option String) (d : String) : String :=
  match t with
  | some s => if s == "" then d else s
  | none => d

/-- Execute one extracted Gemini call (`tool_agent` lines 467-506): compute
the call name, apply `or \x7b\x7d` to the returned arguments, look up the spec
among the advertised tools, project the arguments, execute through the
registry catching any raised error into the `[tool runtime error]` string,
re-parse the result string as JSON (wrapping it as `\x7b"text": ...\x7d` when
that fails), and build the Gemini tool-response message. -/
def geminiExecCall (reg : List ToolSpec) (tools : List ToolSpec) (call : GCall) :
    Except String Value := do
  let fname ← geminiCallName call.name
  let rawArgs := orEmptyDict call.args
  let spec := tools.find? (fun t => t.name == fname)
  let margs ← geminiMapArgs spec rawArgs
  let resultStr := match runtimeExecute reg fname (.vDict margs) with
    | .ok s => s
    | .error e => "[tool runtime error] ValueError: " ++ e
  let payload := match jsonLoads resultStr with
    | some v => v
    | none => Value.vDict (.cons "text" (.vStr resultStr) .nil)
  Except.ok (toolResponsePart fname payload)

/-- Execute every extracted call in order, collecting the tool messages. -/
def geminiCallsToMsgs (reg : List ToolSpec) (tools : List ToolSpec) :
    List GCall → Except String (List Value)
| [] => .ok []
| c :: rest => do
    let m ← geminiExecCall reg tools c
    let ms ← geminiCallsToMsgs reg tools rest
    Except.ok (m :: ms)

/-- `tool_msgs[-1]["parts"][0]["function_response"]["response"]`. -/
def geminiLastPayload (msgs : List Value) : Except String Value :=
  match msgs.getLast? with
  | none => .error "IndexError: list index out of range"
  | some last => do
      let parts ← pyGetItemD last "parts"
      let p0 ← pyGetItem0 parts
      let fr ← pyGetItemD p0 "function_response"
      pyGetItemD fr "response"

/-- The tail of the Gemini tool loop after an empty/blank final text: fall
back to the JSON-stringified (`ensure_ascii=False`) payload of the last tool
result; with no tool messages, fall through to the first response's text. -/
def geminiFallback (resp : GResp) (toolMsgs : List Value) : Except String GRun :=
  if toolMsgs.isEmpty then .ok ⟨pyOrElse resp.text resp.reprS, 2, toolMsgs⟩
  else do
    let payload ← geminiLastPayload toolMsgs
    Except.ok ⟨jsonDumps false payload, 2, toolMsgs⟩

/-- The Gemini `tool_agent` core (lines 443-541): normalize the incoming
messages, ask the model once; with no extracted function calls return the
response text (or `str(resp)`); otherwise execute every call, ask the model a
second time with the tool messages appended, return the stripped final text
when non-blank, else fall back to the last tool payload. `oracle1`/`oracle2`
are the two `generate_content` boundaries. -/
def geminiToolAgent (oracle1 oracle2 : List Value → GResp) (reg : List ToolSpec)
    (tools : List ToolSpec) (messages : List Value) : Except String GRun :=
  let lc := normalizeGeminiMessages messages
  let resp := oracle1 lc
  if resp.calls.isEmpty then .ok ⟨pyOrElse resp.text resp.reprS, 1, []⟩
  else do
    let toolMsgs ← geminiCallsToMsgs reg tools resp.calls
    let final := oracle2 (lc ++ toolMsgs)
    match final.text with
    | some t => if pyStrip t == "" then geminiFallback resp toolMsgs
                else Except.ok ⟨pyStrip t, 2, toolMsgs⟩
    | none => geminiFallback resp toolMsgs

/-! ## OpenAI agent (`src/backend/app/agents/openai_agent.py`)

The network boundary (`client.chat.completions.create`) is the oracle: a
function from the accumulated wire messages to the parsed response. The tool
declarations and tool-choice policy are fixed per run and closed over by the
oracle. `content = ""` models both an empty and an absent (`None`) content,
which the source treats identically through `or`. -/

/-- One tool call of an OpenAI response (`tc.id`, `tc.type`,
`tc.function.name`, `tc.function.arguments` — the arguments arrive as a JSON
string). -/
structure OAIToolCall where
  id : String
  callType : String
  name : String
  arguments : String

/-- A parsed OpenAI chat completion message at the oracle boundary. -/
structure OAIResp where
  content : String
  toolCalls : List OAIToolCall

/-- The observable outcome of one OpenAI tool-agent run: the returned text,
the number of completion rounds, and (as a ghost log) the per-round emitted
`msg.content` values. -/
structure OAIRun where
  answer : String
  rounds : Nat
  emitted : List String
deriving DecidableEq

/-- The normalized wire record of one tool call, as appended to the
assistant turn. -/
def normalizeOAICall (tc : OAIToolCall) : Value :=
  .vDict (.cons "id" (.vStr tc.id) (.cons "type" (.vStr tc.callType)
    (.cons "function" (.vDict (.cons "name" (.vStr tc.name)
      (.cons "arguments" (.vStr tc.arguments) .nil))) .nil)))

/-- `json.loads(tc.function.arguments or "\x7b\x7d")` with the `except` fallback
to `\x7b\x7d` (lines 123-126). -/
def oaiCallArgs (tc : OAIToolCall) : Value :=
  match jsonLoads (if tc.arguments == "" then "\x7b\x7d" else tc.arguments) with
  | some v => v
  | none => Value.vDict .nil

/-- The tool-role message appended for one executed call (lines 128-134). -/
def oaiToolMsg (tc : OAIToolCall) (result : String) : Value :=
  Value.vDict (.cons "role" (.vStr "tool")
    (.cons "tool_call_id" (.vStr tc.id) (.cons "name" (.vStr tc.name)
      (.cons "content" (.vStr result) .nil))))

/-- Execute the tool calls of one OpenAI round (lines 121-134): decode the
argument string (`or "\x7b\x7d"`, and `\x7b\x7d` when decoding fails), call
`registry.runtime_execute` — NOT wrapped in a try, so the unknown-tool
`ValueError` propagates and aborts the request — and append one tool-role
message per call. -/
def openaiExecCalls (reg : List ToolSpec) : List OAIToolCall → Except String (List Value)
| [] => .ok []
| tc :: rest =>
    match runtimeExecute reg tc.name (oaiCallArgs tc) with
    | .error e => .error e
    | .ok result =>
      match openaiExecCalls reg rest with
      | .error e => .error e
      | .ok ms => .ok (oaiToolMsg tc result :: ms)

/-- The iterative OpenAI tool loop (lines 90-142), with its fixed fuel of 4
rounds. State: remaining fuel, accumulated wire messages, `last_msg_content`
(`""` models `None`), the ghost log of emitted contents, rounds done so far.
Per round: remember a non-empty content; with no tool calls return this
round's content (`msg.content or ""`); otherwise append the assistant record
with its normalized tool calls, execute the calls, append their tool
messages, continue. At fuel exhaustion return `last_msg_content or ""`. -/
def openaiLoop (oracle : List Value → OAIResp) (reg : List ToolSpec) :
    Nat → List Value → String → List String → Nat → Except String OAIRun
| 0, _msgs, last, emitted, n => .ok ⟨(if last == "" then "" else last), n, emitted⟩
| fuel + 1, msgs, last, emitted, n =>
    let resp := oracle msgs
    let last2 := if resp.content == "" then last else resp.content
    if resp.toolCalls.isEmpty then
      .ok ⟨resp.content, n + 1, emitted ++ [resp.content]⟩
    else
      let assistantRec := Value.vDict (.cons "role" (.vStr "assistant")
        (.cons "content" (.vStr resp.content)
          (.cons "tool_calls" (.vList (vlistOf (resp.toolCalls.map normalizeOAICall)))
            .nil)))
      match openaiExecCalls reg resp.toolCalls with
      | .error e => .error e
      | .ok toolMsgs =>
          openaiLoop oracle reg fuel ((msgs ++ [assistantRec]) ++ toolMsgs)
            last2 (emitted ++ [resp.content]) (n + 1)

/-- The OpenAI `tool_agent` (lines 63-142): prepend the system message when a
non-empty system prompt is given, append the prior conversation, and run the
4-round loop. -/
def openaiToolAgent (oracle : List Value → OAIResp) (reg : List ToolSpec)
    (messages : List Value) (systemPrompt : Option String) : Except String OAIRun :=
  let working :=
    (match systemPrompt with
     | some sp =>
         if sp == "" then []
         else [Value.vDict (.cons "role" (.vStr "system")
           (.cons "content" (.vStr sp) .nil))]
     | none => []) ++ messages
  openaiLoop oracle reg 4 working "" [] 0

/-! ## Anthropic agent (`src/backend/app/agents/anthropic_agent.py`)

The network boundary (`client.messages.create`) is the oracle: a function
from the accumulated wire turns to the parsed response blocks. The model id,
system blocks, `max_tokens` and tool declarations are fixed per run and
closed over by the oracle. Response blocks are modelled semantically (the
source's dict-vs-SDK-object duck typing collapses onto the block's
information content). -/

/-- One content block of an Anthropic response. -/
inductive ABlock where
| textB (text : String) : ABlock
| toolUseB (id : Value) (name : Value) (input : Value) : ABlock
| otherB (btype : String) : ABlock

/-- A parsed Anthropic response at the oracle boundary. -/
structure AResp where
  content : List ABlock

/-- The observable outcome of one Anthropic tool-agent run. -/
structure ARun where
  answer : String
  rounds : Nat
  emitted : List String
deriving DecidableEq

/-- The text this turn emitted: the newline-join of the truthy texts of the
`text`-type blocks (lines 122-123). -/
def anthropicEmittedText (blocks : List ABlock) : String :=
  String.intercalate "\n" (blocks.filterMap (fun b =>
    match b with
    | .textB t => if t == "" then none else some t
    | _ => none))

/-- Whether a block is a `tool_use` block. -/
def isToolUse : ABlock → Bool
| .toolUseB _ _ _ => true
| _ => false

/-- The assistant-turn entry for one response block (lines 133-145). -/
def anthropicBlockEntry : ABlock → Value
| .textB t => .vDict (.cons "type" (.vStr "text") (.cons "text" (.vStr t) .nil))
| .toolUseB id name input =>
    .vDict (.cons "type" (.vStr "tool_use") (.cons "id" id
      (.cons "name" name (.cons "input" (orEmptyDict input) .nil))))
| .otherB bt => .vDict (.cons "type" (.vStr bt) .nil)

/-- `tool_name = name if isinstance(name, str) and name else
"_unknown_tool_"` (line 156). -/
def anthToolName (name : Value) : String :=
  match name with
  | .vStr s => if s == "" then "_unknown_tool_" else s
  | _ => "_unknown_tool_"

/-- Execute one `tool_use` block and build its `tool_result` entry (lines
150-164): the registry call sits inside a `try`, so any raised error — in
particular the unknown-tool `ValueError` — becomes the structured
`[tool error]` string inside a normal `tool_result` entry. -/
def anthropicToolResult (reg : List ToolSpec) (id name input : Value) : Value :=
  let toolName := anthToolName name
  let resultStr := match runtimeExecute reg toolName (orEmptyDict input) with
    | .ok s => s
    | .error e => "[tool error] ValueError: " ++ e
  .vDict (.cons "type" (.vStr "tool_result") (.cons "tool_use_id" id
    (.cons "content" (.vStr resultStr) .nil)))

/-- The `tool_result` entries for all `tool_use` blocks of a turn. -/
def anthropicResults (reg : List ToolSpec) (blocks : List ABlock) : List Value :=
  (blocks.filter isToolUse).filterMap (fun b =>
    match b with
    | .toolUseB id name input => some (anthropicToolResult reg id name input)
    | _ => none)

/-- The iterative Anthropic tool loop (lines 98-173), with its fixed fuel of
4 rounds. Per round: gather the emitted text, remember it when non-empty;
with no `tool_use` blocks return `emitted_text or last_text`; otherwise
append the assistant turn with all blocks, execute the tools, append one
user turn holding all `tool_result` entries, continue. At fuel exhaustion
return `last_text or ""`. Every per-call failure is caught inside
`anthropicToolResult`, so the loop itself is total. -/
def anthropicLoop (oracle : List Value → AResp) (reg : List ToolSpec) :
    Nat → List Value → String → List String → Nat → ARun
| 0, _msgs, last, emitted, n => ⟨(if last == "" then "" else last), n, emitted⟩
| fuel + 1, msgs, last, emitted, n =>
    let resp := oracle msgs
    let etext := anthropicEmittedText resp.content
    let last2 := if etext == "" then last else etext
    if (resp.content.filter isToolUse).isEmpty then
      ⟨(if etext == "" then last2 else etext), n + 1, emitted ++ [etext]⟩
    else
      let assistantTurn := Value.vDict (.cons "role" (.vStr "assistant")
        (.cons "content" (.vList (vlistOf (resp.content.map anthropicBlockEntry)))
          .nil))
      let userTurn := Value.vDict (.cons "role" (.vStr "user")
        (.cons "content" (.vList (vlistOf (anthropicResults reg resp.content)))
          .nil))
      anthropicLoop oracle reg fuel (msgs ++ [assistantTurn, userTurn])
        last2 (emitted ++ [etext]) (n + 1)

/-- `_to_messages`' forward walk (lines 15-24): for each message read
`m["role"]` and `m["content"]` (a missing key raises `KeyError` and aborts),
collecting system contents separately from the non-system turns. -/
def collectSystemTexts : List Value → Except String (List Value × List Value)
| [] => .ok ([], [])
| m :: rest => do
    let role ← pyGetItemD m "role"
    let c ← pyGetItemD m "content"
    let (texts, turns) ← collectSystemTexts rest
    if (match role with | .vStr s => s == "system" | _ => false) then
      Except.ok (c :: texts, turns)
    else
      Except.ok (texts,
        (Value.vDict (.cons "role" role (.cons "content"
          (.vList (.cons (.vDict (.cons "type" (.vStr "text")
            (.cons "text" c .nil))) .nil)) .nil))) :: turns)

/-- `"\n".join(values)`: raises `TypeError` when an element is not a
string. -/
def pyJoinStrsNL : List Value → Except String String
| [] => .ok ""
| [.vStr s] => .ok s
| .vStr s :: v :: rest => (pyJoinStrsNL (v :: rest)).map (fun r => s ++ "\n" ++ r)
| _ => .error "TypeError: sequence item is not str"

/-- The Anthropic `tool_agent` entry (lines 58-99 down to the loop): convert
the conversation, build the system blocks (whose construction can raise on
non-string system contents via the join), and run the 4-round loop from the
extracted turns. The resulting system blocks, like the other fixed request
parameters, are closed over by the oracle. -/
def anthropicToolAgent (oracle : List Value → AResp) (reg : List ToolSpec)
    (messages : List Value) (systemPrompt : Option String) : Except String ARun := do
  let (texts, turns) ← collectSystemTexts messages
  let _joined ← pyJoinStrsNL texts
  let _ := systemPrompt
  Except.ok (anthropicLoop oracle reg 4 turns "" [] 0)

/-! ## The default registry (`ToolRegistry._register_defaults`)

The five registered tools, with their exact names and parameter schemas; the
executors perform I/O (web search, filesystem, SQLite) and are abstract
parameters of the construction. Descriptions are elided to a short tag: no
verified property depends on them. -/

/-- The `web_search` parameter schema. -/
def webSearchParams : Value :=
  .vDict (.cons "type" (.vStr "object")
    (.cons "properties" (.vDict
      (.cons "query" (.vDict (.cons "type" (.vStr "string")
        (.cons "description" (.vStr "Required. Concise search query.") .nil)))
      (.cons "max_results" (.vDict (.cons "type" (.vStr "integer")
        (.cons "minimum" (.vInt 1) (.cons "maximum" (.vInt 10)
          (.cons "default" (.vInt 3)
            (.cons "description" (.vStr "Optional. Number of results (1-10).")
              .nil))))))
        .nil)))
    (.cons "required" (.vList (.cons (.vStr "query") .nil))
      (.cons "additionalProperties" (.vBool false) .nil))))

/-- The `file_read` parameter schema. -/
def fileReadParams : Value :=
  .vDict (.cons "type" (.vStr "object")
    (.cons "properties" (.vDict
      (.cons "path" (.vDict (.cons "type" (.vStr "string")
        (.cons "description" (.vStr "Required. Exact filename.") .nil))) .nil))
    (.cons "required" (.vList (.cons (.vStr "path") .nil))
      (.cons "additionalProperties" (.vBool false) .nil))))

/-- The `sqlite_query` parameter schema. -/
def sqliteQueryParams : Value :=
  .vDict (.cons "type" (.vStr "object")
    (.cons "properties" (.vDict
      (.cons "sql" (.vDict (.cons "type" (.vStr "string")
        (.cons "description" (.vStr "Required. SELECT or PRAGMA SQL.") .nil))) .nil))
    (.cons "required" (.vList (.cons (.vStr "sql") .nil))
      (.cons "additionalProperties" (.vBool false) .nil))))

/-- The `file_finder` parameter schema. -/
def fileFinderParams : Value :=
  .vDict (.cons "type" (.vStr "object")
    (.cons "properties" (.vDict .nil)
    (.cons "required" (.vList .nil)
      (.cons "additionalProperties" (.vBool false) .nil))))

/-- The `sqlite_execute` parameter schema. -/
def sqliteExecuteParams : Value :=
  .vDict (.cons "type" (.vStr "object")
    (.cons "properties" (.vDict
      (.cons "sql" (.vDict (.cons "type" (.vStr "string")
        (.cons "description" (.vStr "Required. Non-SELECT SQL.") .nil))) .nil))
    (.cons "required" (.vList (.cons (.vStr "sql") .nil))
      (.cons "additionalProperties" (.vBool false) .nil))))

/-- The default registry contents, in registration order, parameterized over
the five executors. -/
def defaultRegistry (webSearchExec fileReadExec sqliteQueryExec
    fileFinderExec sqliteExecuteExec : Value → Except String Value) : List ToolSpec :=
  [⟨"web_search", "DuckDuckGo web search", webSearchParams, webSearchExec⟩,
   ⟨"file_read", "Read an uploaded file", fileReadParams, fileReadExec⟩,
   ⟨"sqlite_query", "Read-only SQL query", sqliteQueryParams, sqliteQueryExec⟩,
   ⟨"file_finder", "List uploaded files", fileFinderParams, fileFinderExec⟩,
   ⟨"sqlite_execute", "SQL write statement", sqliteExecuteParams, sqliteExecuteExec⟩]

/-! ## Statement-support definitions -/

/-- The values of a dict, in order. -/
def VDict.vals : VDict → List Value
| .nil => []
| .cons _ v tl => v :: VDict.vals tl

/-- The elements of a list value, as a Lean list. -/
def VList.toList : VList → List Value
| .nil => []
| .cons v tl => v :: VList.toList tl

/-- The `content or last` folding of the tool loops: the last non-empty
string of the list, else the default. -/
def lastNonEmptyOr (d : String) : List String → String
| [] => d
| c :: rest => lastNonEmptyOr (if c == "" then d else c) rest

/-- The per-entry shape normalization the sanitizer applies after the
allowed-key filter (a proof-side regrouping of
`normalizeProps`/`normalizeRequired`). -/
def normalizeEntryKV (k : String) (v : Value) : Value :=
  if k == "properties" then
    match v with
    | .vDict ps => Value.vDict ps
    | _ => .vDict .nil
  else if k == "required" then
    match v with
    | .vList xs => Value.vList xs
    | _ => .vList .nil
  else v

/-- The sanitizer's dict pipeline, regrouped entry by entry: drop a denied
key, drop a non-allowed key, otherwise transform and normalize in place. -/
def sanitizeGeminiStep (k : String) (v : Value) : Option (String × Value) :=
  if geminiDeniedKeys.contains k then none
  else if geminiAllowedKeys.contains k then
    some (k, normalizeEntryKV k (transformEntryKV k v))
  else none

/-- Apply `sanitizeGeminiStep` across a dict. -/
def applySanitizeStep : VDict → VDict
| .nil => .nil
| .cons k v tl =>
    match sanitizeGeminiStep k v with
    | some kv => .cons kv.1 kv.2 (applySanitizeStep tl)
    | none => applySanitizeStep tl

/-! ## Demo instances used by concrete witnesses -/

/-- A trivial executor for demo registries. -/
def demoExec : Value → Except String Value := fun _ => .ok .vNull

/-- An executor that always raises. -/
def demoRaiseExec : Value → Except String Value := fun _ => .error "boom"

/-- The default registry with trivial executors. -/
def demoRegistry : List ToolSpec :=
  defaultRegistry demoExec demoExec demoExec demoExec demoExec

/-- The `sqlite_query` spec with a trivial executor. -/
def sqliteQuerySpecDemo : ToolSpec :=
  ⟨"sqlite_query", "Read-only SQL query", sqliteQueryParams, demoExec⟩

/-- The `web_search` spec with a trivial executor. -/
def webSearchSpecDemo : ToolSpec :=
  ⟨"web_search", "DuckDuckGo web search", webSearchParams, demoExec⟩

/-! # Theorems -/

/-- Helper: the lookup loop of `ToolRegistry.get` keeps exactly the names
that resolve, in order. -/
theorem getLoop_eq_filterMap (tools : List ToolSpec) :
    ∀ names, ToolRegistry.getLoop tools names = names.filterMap (regLookup tools) := by
  intro names
  induction names with
  | nil => rfl
  | cons n rest ih =>
      cases h : regLookup tools n <;>
        simp [ToolRegistry.getLoop, List.filterMap_cons, h, ih]

/-- Claim C9: `resolve` (`ToolRegistry.get`) returns the specs of the names
that exist in the registry, in exactly the order the names were given,
silently dropping unknown names; an absent or empty name sequence yields the
empty sequence. -/
theorem c9_resolve_order_and_drop (tools : List ToolSpec) :
    ToolRegistry.get tools none = [] ∧
    ToolRegistry.get tools (some []) = [] ∧
    ∀ names, ToolRegistry.get tools (some names) = names.filterMap (regLookup tools) := by
  refine ⟨rfl, rfl, ?_⟩
  intro names
  cases names with
  | nil => rfl
  | cons n rest =>
      show ToolRegistry.getLoop tools (n :: rest) = _
      exact getLoop_eq_filterMap tools (n :: rest)

/-- Claim C9, witness: on the default registry, a request for
`[sqlite_query, nope, web_search]` resolves to the two known specs in the
requested order, with the unknown name silently dropped. -/
theorem c9_witness :
    ToolRegistry.get demoRegistry (some ["sqlite_query", "nope", "web_search"])
      = [sqliteQuerySpecDemo, webSearchSpecDemo] := by
  have h := (c9_resolve_order_and_drop demoRegistry).2.2 ["sqlite_query", "nope", "web_search"]
  exact h.trans rfl

/-- Claim C7: executing a name not present in the registry always fails with
the designated `ValueError("Unknown tool: ...")` outcome (modelled as
`Except.error`), whatever the argument mapping; no other fault is raised. -/
theorem c7_unknown_tool_outcome (tools : List ToolSpec) (name : String) (args : Value)
    (h : regLookup tools name = none) :
    runtimeExecute tools name args = .error ("Unknown tool: " ++ name) := by
  simp [runtimeExecute, h]

/-- Claim C7, witness: the unknown name `nope` against the default registry. -/
theorem c7_witness :
    runtimeExecute demoRegistry "nope" (.vDict .nil) = .error "Unknown tool: nope" := by
  have h := c7_unknown_tool_outcome demoRegistry "nope" (.vDict .nil) rfl
  exact h.trans (by decide)

/-- Claim C6: for a registered tool, a raised executor exception is caught
and converted into the JSON string `\x7b"ok": false, "error": msg\x7d`; a dict
or list result is serialized with `json.dumps`; any other result passes
through `str`. -/
theorem c6_execute_error_capture_and_stringify (tools : List ToolSpec) (name : String)
    (spec : ToolSpec) (args : Value) (h : regLookup tools name = some spec) :
    (∀ e, spec.executor (orEmptyDict args) = .error e →
      runtimeExecute tools name args =
        .ok (jsonDumps true (.vDict (.cons "ok" (.vBool false)
          (.cons "error" (.vStr e) .nil))))) ∧
    (∀ kvs, spec.executor (orEmptyDict args) = .ok (.vDict kvs) →
      runtimeExecute tools name args = .ok (jsonDumps true (.vDict kvs))) ∧
    (∀ xs, spec.executor (orEmptyDict args) = .ok (.vList xs) →
      runtimeExecute tools name args = .ok (jsonDumps true (.vList xs))) ∧
    (∀ r, spec.executor (orEmptyDict args) = .ok r →
      (∀ kvs, r ≠ .vDict kvs) → (∀ xs, r ≠ .vList xs) →
      runtimeExecute tools name args = .ok (pyStr r)) := by
  refine ⟨?_, ?_, ?_, ?_⟩
  · intro e he; simp [runtimeExecute, h, he]
  · intro kvs hk; simp [runtimeExecute, h, hk]
  · intro xs hx; simp [runtimeExecute, h, hx]
  · intro r hr hnd hnl
    cases r with
    | vDict kvs => exact absurd rfl (hnd kvs)
    | vList xs => exact absurd rfl (hnl xs)
    | vNull => simp [runtimeExecute, h, hr]
    | vBool b => simp [runtimeExecute, h, hr]
    | vInt n => simp [runtimeExecute, h, hr]
    | vFloat lit => simp [runtimeExecute, h, hr]
    | vStr s => simp [runtimeExecute, h, hr]

/-- Claim C6, witness: a raising executor yields the structured error
string, evaluated concretely. -/
theorem c6_witness :
    runtimeExecute [⟨"t", "d", .vNull, demoRaiseExec⟩] "t" .vNull
      = .ok "\x7b\"ok\": false, \"error\": \"boom\"\x7d" := by
  have h := (c6_execute_error_capture_and_stringify
    [⟨"t", "d", .vNull, demoRaiseExec⟩] "t" ⟨"t", "d", .vNull, demoRaiseExec⟩
    .vNull rfl).1 "boom" rfl
  exact h.trans (by decide)

/-- Claim C2 (code bug): the traversal guard of `FileReader.read` compares
the *unnormalized* joined path against the upload directory's parents, and
the upload directory is literally among the parents of
`UPLOAD_DIR / "../../etc/passwd"`, so the check admits the escaping path: no
`Access denied` is raised, and the path the function goes on to read resolves
outside the designated directory. -/
theorem c2_traversal_check_admits_escape :
    fileReaderCheck ⟨true, ["srv", "workshop", "backend", "uploaded_files"]⟩
        "../../etc/passwd"
      = .ok ⟨true, ["srv", "workshop", "backend", "uploaded_files",
                    "..", "..", "etc", "passwd"]⟩ ∧
    (PyPath.normalize ⟨true, ["srv", "workshop", "backend", "uploaded_files",
                              "..", "..", "etc", "passwd"]⟩)
      = ⟨true, ["srv", "workshop", "etc", "passwd"]⟩ ∧
    (PyPath.insideDir
      (PyPath.normalize ⟨true, ["srv", "workshop", "backend", "uploaded_files",
                                "..", "..", "etc", "passwd"]⟩)
      ⟨true, ["srv", "workshop", "backend", "uploaded_files"]⟩) = false := by
  refine ⟨by decide, by decide, by decide⟩

/-- Structural induction on `VDict` alone (the autogenerated eliminator of
the mutual group has multiple motives). -/
theorem VDict.dictInduction {P : VDict → Prop} (base : P .nil)
    (step : ∀ k v tl, P tl → P (.cons k v tl)) : ∀ d, P d
| .nil => base
| .cons k v tl => step k v tl (VDict.dictInduction base step tl)

/-- Structural induction on `VList` alone. -/
theorem VList.listInduction {P : VList → Prop} (base : P .nil)
    (step : ∀ v tl, P tl → P (.cons v tl)) : ∀ xs, P xs
| .nil => base
| .cons v tl => step v tl (VList.listInduction base step tl)

/-- Helper: reading back the key just written into a dict. -/
theorem VDict.get_set_self (d : VDict) (k : String) (v : Value) :
    (d.set k v).get k = some v := by
  induction d using VDict.dictInduction with
  | base => simp [VDict.set, VDict.get]
  | step k2 w tl ih =>
      by_cases h : k2 == k
      · simp [VDict.set, VDict.get, h]
      · simp [VDict.set, VDict.get, h, ih]

/-- Claim C10: `_validate_messages` keeps exactly the messages having a
scalar (`str`/`int`/`float`, and Python `bool` as an `int` subtype) content
and coerces their content to a string, so every message a provider adapter
receives has a string content. -/
theorem c10_validated_messages_string_content (messages : List VDict) :
    validateMessages messages = (messages.filter contentIsScalar).map coerceContent ∧
    ∀ m ∈ validateMessages messages, ∃ s, m.get "content" = some (.vStr s) := by
  refine ⟨rfl, ?_⟩
  intro m hm
  rcases List.mem_map.mp hm with ⟨m0, _, rfl⟩
  exact ⟨_, VDict.get_set_self m0 "content" _⟩

/-- Claim C10, witness: an integer content is kept and coerced to the string
form. -/
theorem c10_witness :
    ∃ s, VDict.get (.cons "role" (.vStr "user") (.cons "content" (.vStr "5") .nil))
      "content" = some (.vStr s) := by
  exact (c10_validated_messages_string_content
    [.cons "role" (.vStr "user") (.cons "content" (.vInt 5) .nil)]).2
    (.cons "role" (.vStr "user") (.cons "content" (.vStr "5") .nil)) (by decide)

/-! ### Sanitizer idempotence (claim C8) -/

/-- Helper: the props map on the empty dict. -/
theorem sanitizeGeminiProps_nil : sanitizeGeminiProps VDict.nil = VDict.nil := by
  rw [sanitizeGeminiProps]

/-- Helper: the list map on the empty list. -/
theorem sanitizeGeminiList_nil : sanitizeGeminiList VList.nil = VList.nil := by
  rw [sanitizeGeminiList]

/-- Helper: `integer → number` coercion is idempotent. -/
theorem coerceIntegerType_idem (v : Value) :
    coerceIntegerType (coerceIntegerType v) = coerceIntegerType v := by
  cases v with
  | vStr s =>
      by_cases h : s = "integer"
      · simp [coerceIntegerType, h]
      · simp [coerceIntegerType, h]
  | vNull => rfl
  | vBool b => rfl
  | vInt n => rfl
  | vFloat lit => rfl
  | vList xs => rfl
  | vDict kvs => rfl

/-- Helper: `sanitizeGeminiEntries` on a non-denied head entry transforms it
in place. -/
theorem sanitizeGeminiEntries_cons_not_denied (k : String) (v : Value) (tl : VDict)
    (h : geminiDeniedKeys.contains k = false) :
    sanitizeGeminiEntries (.cons k v tl)
      = .cons k (transformEntryKV k v) (sanitizeGeminiEntries tl) := by
  rw [sanitizeGeminiEntries]
  rw [if_neg (fun hc => Bool.false_ne_true (h ▸ hc))]

/-- Helper: `applySanitizeStep` on a kept head entry. -/
theorem applySanitizeStep_cons_some (k : String) (v : Value) (k2 : String)
    (v2 : Value) (tl : VDict) (h : sanitizeGeminiStep k v = some (k2, v2)) :
    applySanitizeStep (.cons k v tl) = .cons k2 v2 (applySanitizeStep tl) := by
  rw [applySanitizeStep, h]

/-- Helper: `applySanitizeStep` on a dropped head entry. -/
theorem applySanitizeStep_cons_none (k : String) (v : Value) (tl : VDict)
    (h : sanitizeGeminiStep k v = none) :
    applySanitizeStep (.cons k v tl) = applySanitizeStep tl := by
  rw [applySanitizeStep, h]

/-- Helper: the step on a denied key. -/
theorem sanitizeGeminiStep_denied (k : String) (v : Value)
    (hd : geminiDeniedKeys.contains k = true) :
    sanitizeGeminiStep k v = none := by
  rw [sanitizeGeminiStep]
  rw [if_pos hd]

/-- Helper: the step on a non-denied, non-allowed key. -/
theorem sanitizeGeminiStep_dropped (k : String) (v : Value)
    (hd : geminiDeniedKeys.contains k = false)
    (ha : geminiAllowedKeys.contains k = false) :
    sanitizeGeminiStep k v = none := by
  rw [sanitizeGeminiStep]
  rw [if_neg (fun hc => Bool.false_ne_true (hd ▸ hc)),
    if_neg (fun hc => Bool.false_ne_true (ha ▸ hc))]

/-- Helper: the step on a kept key. -/
theorem sanitizeGeminiStep_kept (k : String) (v : Value)
    (hd : geminiDeniedKeys.contains k = false)
    (ha : geminiAllowedKeys.contains k = true) :
    sanitizeGeminiStep k v = some (k, normalizeEntryKV k (transformEntryKV k v)) := by
  rw [sanitizeGeminiStep]
  rw [if_neg (fun hc => Bool.false_ne_true (hd ▸ hc)), if_pos ha]

/-- Helper: the two shape normalizations act entrywise. -/
theorem norms_cons (k : String) (v : Value) (tl : VDict) :
    normalizeRequired (normalizeProps (.cons k v tl))
      = .cons k (normalizeEntryKV k v) (normalizeRequired (normalizeProps tl)) := by
  rcases eq_or_ne k "properties" with rfl | hp
  · cases v <;> rfl
  rcases eq_or_ne k "required" with rfl | hr
  · cases v <;> rfl
  simp [normalizeProps, normalizeRequired, normalizeEntryKV, hp, hr]

/-- Helper (bridge): the sanitizer's dict pipeline equals the entrywise
`applySanitizeStep`. -/
theorem sanitizePipeline_eq_applyStep (kvs : VDict) :
    normalizeRequired (normalizeProps
      ((sanitizeGeminiEntries kvs).keepKeys geminiAllowedKeys))
      = applySanitizeStep kvs := by
  induction kvs using VDict.dictInduction with
  | base =>
      rw [sanitizeGeminiEntries]
      rfl
  | step k v tl ih =>
      by_cases hd : geminiDeniedKeys.contains k = true
      · have he : sanitizeGeminiEntries (.cons k v tl) = sanitizeGeminiEntries tl := by
          rw [sanitizeGeminiEntries]
          rw [if_pos hd]
        rw [he, applySanitizeStep_cons_none k v tl (sanitizeGeminiStep_denied k v hd), ih]
      · have hdf : geminiDeniedKeys.contains k = false := by
          simpa using hd
        rw [sanitizeGeminiEntries_cons_not_denied k v tl hdf]
        by_cases ha : geminiAllowedKeys.contains k = true
        · rw [show (VDict.cons k (transformEntryKV k v)
              (sanitizeGeminiEntries tl)).keepKeys geminiAllowedKeys
              = .cons k (transformEntryKV k v)
                ((sanitizeGeminiEntries tl).keepKeys geminiAllowedKeys) from by
            rw [VDict.keepKeys]
            rw [if_pos ha]]
          rw [norms_cons, ih,
            applySanitizeStep_cons_some k v k (normalizeEntryKV k (transformEntryKV k v))
              tl (sanitizeGeminiStep_kept k v hdf ha)]
        · have haf : geminiAllowedKeys.contains k = false := by
            simpa using ha
          rw [show (VDict.cons k (transformEntryKV k v)
              (sanitizeGeminiEntries tl)).keepKeys geminiAllowedKeys
              = (sanitizeGeminiEntries tl).keepKeys geminiAllowedKeys from by
            rw [VDict.keepKeys]
            rw [if_neg (fun hc => Bool.false_ne_true (haf ▸ hc))]]
          rw [ih, applySanitizeStep_cons_none k v tl
            (sanitizeGeminiStep_dropped k v hdf haf)]

/-- Helper: the sanitizer on a dict is the entrywise step. -/
theorem sanitize_dict_eq (kvs : VDict) :
    sanitizeJsonschemaForGemini (.vDict kvs) = .vDict (applySanitizeStep kvs) := by
  rw [sanitizeJsonschemaForGemini]
  exact congrArg Value.vDict (sanitizePipeline_eq_applyStep kvs)

/-- Helper: mapping the sanitizer over property values is idempotent once
each value is a fixpoint of a double application. -/
theorem sanitizeGeminiProps_idem_of (d : VDict)
    (h : ∀ v ∈ d.vals,
      sanitizeJsonschemaForGemini (sanitizeJsonschemaForGemini v)
        = sanitizeJsonschemaForGemini v) :
    sanitizeGeminiProps (sanitizeGeminiProps d) = sanitizeGeminiProps d := by
  induction d using VDict.dictInduction with
  | base => rw [sanitizeGeminiProps_nil, sanitizeGeminiProps_nil]
  | step k v tl ih =>
      rw [show sanitizeGeminiProps (VDict.cons k v tl)
          = .cons k (sanitizeJsonschemaForGemini v) (sanitizeGeminiProps tl)
        from by rw [sanitizeGeminiProps]]
      rw [show sanitizeGeminiProps (VDict.cons k (sanitizeJsonschemaForGemini v)
            (sanitizeGeminiProps tl))
          = .cons k (sanitizeJsonschemaForGemini (sanitizeJsonschemaForGemini v))
              (sanitizeGeminiProps (sanitizeGeminiProps tl))
        from by rw [sanitizeGeminiProps]]
      rw [h v (by simp [VDict.vals]),
        ih (fun w hw => h w (by simp [VDict.vals, hw]))]

/-- Helper: mapping the sanitizer over list elements is idempotent once each
element is a fixpoint of a double application. -/
theorem sanitizeGeminiList_idem_of (xs : VList)
    (h : ∀ v ∈ xs.toList,
      sanitizeJsonschemaForGemini (sanitizeJsonschemaForGemini v)
        = sanitizeJsonschemaForGemini v) :
    sanitizeGeminiList (sanitizeGeminiList xs) = sanitizeGeminiList xs := by
  induction xs using VList.listInduction with
  | base => rw [sanitizeGeminiList_nil, sanitizeGeminiList_nil]
  | step v tl ih =>
      rw [show sanitizeGeminiList (VList.cons v tl)
          = .cons (sanitizeJsonschemaForGemini v) (sanitizeGeminiList tl)
        from by rw [sanitizeGeminiList]]
      rw [show sanitizeGeminiList (VList.cons (sanitizeJsonschemaForGemini v)
            (sanitizeGeminiList tl))
          = .cons (sanitizeJsonschemaForGemini (sanitizeJsonschemaForGemini v))
              (sanitizeGeminiList (sanitizeGeminiList tl))
        from by rw [sanitizeGeminiList]]
      rw [h v (by simp [VList.toList]),
        ih (fun w hw => h w (by simp [VList.toList, hw]))]

/-- Helper: a produced step output is a fixpoint of the step. -/
theorem sanitizeGeminiStep_idem (k : String) (v : Value)
    (hsan : sanitizeJsonschemaForGemini (sanitizeJsonschemaForGemini v)
      = sanitizeJsonschemaForGemini v)
    (hprops : ∀ ps, v = .vDict ps →
      sanitizeGeminiProps (sanitizeGeminiProps ps) = sanitizeGeminiProps ps) :
    normalizeEntryKV k (transformEntryKV k
      (normalizeEntryKV k (transformEntryKV k v)))
      = normalizeEntryKV k (transformEntryKV k v) := by
  rcases eq_or_ne k "type" with rfl | ht
  · simp [transformEntryKV, normalizeEntryKV, coerceIntegerType_idem]
  rcases eq_or_ne k "properties" with rfl | hp
  · cases v with
    | vDict ps =>
        simp [transformEntryKV, normalizeEntryKV, sanitizePropsValue,
          hprops ps rfl]
    | vNull => simp [transformEntryKV, normalizeEntryKV, sanitizePropsValue, sanitizeGeminiProps_nil]
    | vBool b => simp [transformEntryKV, normalizeEntryKV, sanitizePropsValue, sanitizeGeminiProps_nil]
    | vInt n => simp [transformEntryKV, normalizeEntryKV, sanitizePropsValue, sanitizeGeminiProps_nil]
    | vFloat lit => simp [transformEntryKV, normalizeEntryKV, sanitizePropsValue, sanitizeGeminiProps_nil]
    | vStr s => simp [transformEntryKV, normalizeEntryKV, sanitizePropsValue, sanitizeGeminiProps_nil]
    | vList xs => simp [transformEntryKV, normalizeEntryKV, sanitizePropsValue, sanitizeGeminiProps_nil]
  rcases eq_or_ne k "items" with rfl | hi
  · simp [transformEntryKV, normalizeEntryKV, hsan]
  rcases eq_or_ne k "required" with rfl | hr
  · cases v <;> simp [transformEntryKV, normalizeEntryKV, ht, hp, hi]
  simp [transformEntryKV, normalizeEntryKV, ht, hp, hi, hr]

/-- Helper: `applySanitizeStep` is idempotent once every value is a double
fixpoint of the sanitizer (and deeply so for `properties`). -/
theorem applySanitizeStep_idem_of (d : VDict)
    (hfix : ∀ v ∈ d.vals,
      sanitizeJsonschemaForGemini (sanitizeJsonschemaForGemini v)
        = sanitizeJsonschemaForGemini v)
    (hdeep : ∀ v ∈ d.vals, ∀ ps, v = .vDict ps →
      sanitizeGeminiProps (sanitizeGeminiProps ps) = sanitizeGeminiProps ps) :
    applySanitizeStep (applySanitizeStep d) = applySanitizeStep d := by
  induction d using VDict.dictInduction with
  | base => rfl
  | step k v tl ih =>
      have ih2 := ih (fun w hw => hfix w (by simp [VDict.vals, hw]))
        (fun w hw => hdeep w (by simp [VDict.vals, hw]))
      by_cases hd : geminiDeniedKeys.contains k = true
      · rw [applySanitizeStep_cons_none k v tl (sanitizeGeminiStep_denied k v hd), ih2]
      · have hdf : geminiDeniedKeys.contains k = false := by
          simpa using hd
        by_cases ha : geminiAllowedKeys.contains k = true
        · have hv := hfix v (by simp [VDict.vals])
          have hps := hdeep v (by simp [VDict.vals])
          rw [applySanitizeStep_cons_some k v k
            (normalizeEntryKV k (transformEntryKV k v)) tl
            (sanitizeGeminiStep_kept k v hdf ha)]
          rw [applySanitizeStep_cons_some k
            (normalizeEntryKV k (transformEntryKV k v)) k
            (normalizeEntryKV k (transformEntryKV k
              (normalizeEntryKV k (transformEntryKV k v))))
            (applySanitizeStep tl)
            (sanitizeGeminiStep_kept k _ hdf ha)]
          rw [sanitizeGeminiStep_idem k v hv hps, ih2]
        · have haf : geminiAllowedKeys.contains k = false := by
            simpa using ha
          rw [applySanitizeStep_cons_none k v tl
            (sanitizeGeminiStep_dropped k v hdf haf), ih2]

/-- Helper: every value has positive size. -/
theorem Value.one_le_sizeOf : ∀ v : Value, 1 ≤ sizeOf v := by
  intro v; cases v <;> simp

/-- Helper: a dict value is smaller than the dict. -/
theorem VDict.mem_vals_sizeOf_lt (d : VDict) :
    ∀ v ∈ d.vals, sizeOf v < sizeOf d := by
  induction d using VDict.dictInduction with
  | base => intro v hv; simp [VDict.vals] at hv
  | step k w tl ih =>
      intro v hv
      simp only [VDict.vals, List.mem_cons] at hv
      rcases hv with rfl | hv
      · simp; omega
      · have := ih v hv
        simp; omega

/-- Helper: a list element is smaller than the list. -/
theorem VList.mem_toList_sizeOf_lt (xs : VList) :
    ∀ v ∈ xs.toList, sizeOf v < sizeOf xs := by
  induction xs using VList.listInduction with
  | base => intro v hv; simp [VList.toList] at hv
  | step w tl ih =>
      intro v hv
      simp only [VList.toList, List.mem_cons] at hv
      rcases hv with rfl | hv
      · simp; omega
      · have := ih v hv
        simp; omega

/-- Helper: sanitizer idempotence, by strong induction on the size. -/
theorem sanitize_idem_aux :
    ∀ (n : Nat) (v : Value), sizeOf v ≤ n →
      sanitizeJsonschemaForGemini (sanitizeJsonschemaForGemini v)
        = sanitizeJsonschemaForGemini v := by
  intro n
  induction n with
  | zero =>
      intro v hv
      have := Value.one_le_sizeOf v
      omega
  | succ n ih =>
      intro v hv
      cases v with
      | vNull => simp [sanitizeJsonschemaForGemini]
      | vBool b => simp [sanitizeJsonschemaForGemini]
      | vInt m => simp [sanitizeJsonschemaForGemini]
      | vFloat lit => simp [sanitizeJsonschemaForGemini]
      | vStr s => simp [sanitizeJsonschemaForGemini]
      | vList xs =>
          have hxs : sizeOf xs < sizeOf (Value.vList xs) := by simp
          rw [show sanitizeJsonschemaForGemini (.vList xs)
              = .vList (sanitizeGeminiList xs) from by
            rw [sanitizeJsonschemaForGemini]]
          rw [show sanitizeJsonschemaForGemini (.vList (sanitizeGeminiList xs))
              = .vList (sanitizeGeminiList (sanitizeGeminiList xs)) from by
            rw [sanitizeJsonschemaForGemini]]
          have := sanitizeGeminiList_idem_of xs (fun w hw => by
            have h1 := VList.mem_toList_sizeOf_lt xs w hw
            exact ih w (by omega))
          rw [this]
      | vDict kvs =>
          have hk : sizeOf kvs < sizeOf (Value.vDict kvs) := by simp
          rw [sanitize_dict_eq kvs, sanitize_dict_eq (applySanitizeStep kvs)]
          have := applySanitizeStep_idem_of kvs
            (fun w hw => by
              have h1 := VDict.mem_vals_sizeOf_lt kvs w hw
              exact ih w (by omega))
            (fun w hw ps hps => by
              have h1 := VDict.mem_vals_sizeOf_lt kvs w hw
              have h2 : sizeOf ps < sizeOf w := by subst hps; simp
              exact sanitizeGeminiProps_idem_of ps (fun u hu => by
                have h3 := VDict.mem_vals_sizeOf_lt ps u hu
                exact ih u (by omega)))
          rw [this]

/-- Claim C8: the Gemini schema sanitizer is idempotent — sanitizing any
schema value twice yields exactly the result of sanitizing it once. -/
theorem c8_sanitizer_idempotent (schema : Value) :
    sanitizeJsonschemaForGemini (sanitizeJsonschemaForGemini schema)
      = sanitizeJsonschemaForGemini schema :=
  sanitize_idem_aux (sizeOf schema) schema (Nat.le_refl _)

/-- Claim C8, witness: idempotence evaluated on the registered `web_search`
parameter schema. -/
theorem c8_witness :
    sanitizeJsonschemaForGemini (sanitizeJsonschemaForGemini webSearchParams)
      = sanitizeJsonschemaForGemini webSearchParams :=
  c8_sanitizer_idempotent webSearchParams

/-! ### Argument projection (claim C3) -/

/-- Helper: projecting a dict none of whose declared keys are supplied
matches nothing. -/
theorem projectKnown_none_of_disjoint (propsD : VDict) (d : VDict)
    (h : ∀ pk ∈ propsD.keys, d.hasKey pk = false) :
    projectKnown propsD (.vDict d) = .ok .nil := by
  induction propsD using VDict.dictInduction with
  | base => rfl
  | step pk pv tl ih =>
      have hk := h pk (by simp [VDict.keys])
      simp only [projectKnown, pyContainsStr, hk, Except.bind, bind]
      exact ih (fun q hq => h q (by simp [VDict.keys, hq]))

/-- Claim C3, counterexample: against the registered `sqlite_query` schema
(sole declared property `sql`), the supplied single argument
`\x7b"query": "SELECT 1"\x7d` does NOT project to `\x7b"sql": "SELECT 1"\x7d`;
the recovery keeps the supplied key unchanged. -/
theorem c3_counterexample :
    geminiMapArgs (some sqliteQuerySpecDemo)
        (.vDict (.cons "query" (.vStr "SELECT 1") .nil))
      ≠ .ok (.cons "sql" (.vStr "SELECT 1") .nil) ∧
    geminiMapArgs (some sqliteQuerySpecDemo)
        (.vDict (.cons "query" (.vStr "SELECT 1") .nil))
      = .ok (.cons "query" (.vStr "SELECT 1") .nil) := by
  exact ⟨by decide, by decide⟩

/-- Claim C3 (amended): in the Gemini projection, when the schema is known,
its `properties` are non-empty, the intersection of supplied and declared
keys is empty, and exactly one argument was supplied, the projected
arguments keep that single supplied key/value pair unchanged (the supplied
key is NOT renamed to the declared parameter). -/
theorem c3_single_arg_kept (sp : ToolSpec) (params propsD : VDict) (k : String)
    (v : Value)
    (hparams : sp.parameters = .vDict params)
    (hprops : params.get "properties" = some (.vDict propsD))
    (hne : propsD ≠ .nil)
    (hmiss : ∀ pk ∈ propsD.keys, pk ≠ k) :
    geminiMapArgs (some sp) (.vDict (.cons k v .nil)) = .ok (.cons k v .nil) := by
  have hdisj : ∀ pk ∈ propsD.keys,
      (VDict.cons k v .nil).hasKey pk = false := by
    intro pk hpk
    have hne2 : ¬ k = pk := fun h => (hmiss pk hpk) h.symm
    simp [VDict.hasKey, VDict.get, hne2]
  have hproj := projectKnown_none_of_disjoint propsD (.cons k v .nil) hdisj
  cases propsD with
  | nil => exact absurd rfl hne
  | cons p0 w0 ptl =>
      simp only [geminiMapArgs, hparams, hprops, Option.getD, pyTruthy,
        hproj, Except.bind, bind, VDict.length, pyLen, singleFirstPair]
      rfl

/-- Claim C3, witness: the amended projection evaluated on the
`sqlite_query` schema and the single wrong-keyed argument. -/
theorem c3_witness :
    geminiMapArgs (some sqliteQuerySpecDemo)
        (.vDict (.cons "query" (.vStr "SELECT 1") .nil))
      = .ok (.cons "query" (.vStr "SELECT 1") .nil) := by
  exact c3_single_arg_kept sqliteQuerySpecDemo _ _ "query" (.vStr "SELECT 1")
    rfl rfl (by decide) (by decide)

/-! ### Empty-final-text fallback (claim C4) -/

/-- Helper: a successful Gemini call execution yields a tool-response
message. -/
theorem geminiExecCall_shape (reg tools : List ToolSpec) (c : GCall) (m : Value)
    (h : geminiExecCall reg tools c = .ok m) :
    ∃ f p, m = toolResponsePart f p := by
  unfold geminiExecCall at h
  cases hn : geminiCallName c.name with
  | error e => rw [hn] at h; simp [bind, Except.bind] at h
  | ok fname =>
      rw [hn] at h
      simp only [bind, Except.bind] at h
      cases hm : geminiMapArgs (tools.find? fun t => t.name == fname)
          (orEmptyDict c.args) with
      | error e => rw [hm] at h; simp at h
      | ok margs =>
          rw [hm] at h
          injection h with h2
          exact ⟨fname, _, h2.symm⟩

/-- Helper: successful call execution produces one tool message per call,
each a tool-response message. -/
theorem geminiCallsToMsgs_shape (reg tools : List ToolSpec) :
    ∀ (cs : List GCall) (ms : List Value),
      geminiCallsToMsgs reg tools cs = .ok ms →
      ms.length = cs.length ∧ ∀ m ∈ ms, ∃ f p, m = toolResponsePart f p := by
  intro cs
  induction cs with
  | nil =>
      intro ms h
      unfold geminiCallsToMsgs at h
      injection h with h2
      subst h2
      exact ⟨rfl, by simp⟩
  | cons c rest ih =>
      intro ms h
      unfold geminiCallsToMsgs at h
      cases he : geminiExecCall reg tools c with
      | error e => rw [he] at h; simp [bind, Except.bind] at h
      | ok m0 =>
          rw [he] at h
          simp only [bind, Except.bind] at h
          cases hr : geminiCallsToMsgs reg tools rest with
          | error e => rw [hr] at h; simp at h
          | ok ms0 =>
              rw [hr] at h
              injection h with h2
              subst h2
              refine ⟨by simp [(ih ms0 hr).1], ?_⟩
              intro m hm
              rcases List.mem_cons.mp hm with rfl | hm0
              · exact geminiExecCall_shape reg tools c m he
              · exact (ih ms0 hr).2 m hm0

/-- Helper: extracting the payload of a final tool-response message. -/
theorem geminiLastPayload_toolResponsePart (ms : List Value) (f : String)
    (p : Value) (h : ms.getLast? = some (toolResponsePart f p)) :
    geminiLastPayload ms = .ok (geminiWrapPayload p) := by
  unfold geminiLastPayload
  rw [h]
  rfl

/-- Helper: a successful non-empty call execution leaves an extractable
final tool payload. -/
theorem geminiCallsToMsgs_lastPayload (reg tools : List ToolSpec) :
    ∀ (cs : List GCall) (ms : List Value),
      geminiCallsToMsgs reg tools cs = .ok ms → cs ≠ [] →
      ms ≠ [] ∧ ∃ f p, ms.getLast? = some (toolResponsePart f p) := by
  intro cs
  induction cs with
  | nil => intro ms _ hne; exact absurd rfl hne
  | cons c rest ih =>
      intro ms h _
      unfold geminiCallsToMsgs at h
      cases he : geminiExecCall reg tools c with
      | error e => rw [he] at h; simp [bind, Except.bind] at h
      | ok m0 =>
          rw [he] at h
          simp only [bind, Except.bind] at h
          cases hr : geminiCallsToMsgs reg tools rest with
          | error e => rw [hr] at h; simp at h
          | ok ms0 =>
              rw [hr] at h
              injection h with h2
              subst h2
              refine ⟨by simp, ?_⟩
              cases rest with
              | nil =>
                  have : ms0 = [] := by
                    unfold geminiCallsToMsgs at hr
                    injection hr with h3
                    exact h3.symm
                  subst this
                  obtain ⟨f, p, rfl⟩ := geminiExecCall_shape reg tools c m0 he
                  exact ⟨f, p, rfl⟩
              | cons c2 rest2 =>
                  obtain ⟨hne0, f, p, hlast⟩ :=
                    ih ms0 hr (by simp)
                  cases ms0 with
                  | nil => exact absurd rfl hne0
                  | cons b bs =>
                      exact ⟨f, p, by rw [List.getLast?_cons_cons]; exact hlast⟩

/-- Claim C4 (amended): in the Gemini loop, whenever at least one tool call
was extracted, all calls executed, and the final model turn's text is blank
(absent, empty, or whitespace), the loop returns the JSON-stringified
(`ensure_ascii=False`) payload of the most recent tool result instead of an
empty answer. (The OpenAI loop does not have this fallback — see the
counterexample.) -/
theorem c4_gemini_payload_fallback
    (oracle1 oracle2 : List Value → GResp) (reg tools : List ToolSpec)
    (messages : List Value) (toolMsgs : List Value)
    (hcalls : (oracle1 (normalizeGeminiMessages messages)).calls ≠ [])
    (hexec : geminiCallsToMsgs reg tools
      (oracle1 (normalizeGeminiMessages messages)).calls = .ok toolMsgs)
    (hblank : match (oracle2 (normalizeGeminiMessages messages ++ toolMsgs)).text with
      | some t => pyStrip t = ""
      | none => True) :
    ∃ payload, geminiLastPayload toolMsgs = .ok payload ∧
      geminiToolAgent oracle1 oracle2 reg tools messages
        = .ok ⟨jsonDumps false payload, 2, toolMsgs⟩ := by
  obtain ⟨hne, f, p, hlast⟩ := geminiCallsToMsgs_lastPayload reg tools _
    toolMsgs hexec hcalls
  have hpay := geminiLastPayload_toolResponsePart toolMsgs f p hlast
  refine ⟨geminiWrapPayload p, hpay, ?_⟩
  have hie : (oracle1 (normalizeGeminiMessages messages)).calls.isEmpty = false := by
    cases hc : (oracle1 (normalizeGeminiMessages messages)).calls with
    | nil => exact absurd hc hcalls
    | cons a l => rfl
  have hfb : geminiFallback (oracle1 (normalizeGeminiMessages messages)) toolMsgs
      = .ok ⟨jsonDumps false (geminiWrapPayload p), 2, toolMsgs⟩ := by
    unfold geminiFallback
    rw [if_neg (by simp [List.isEmpty_iff, hne])]
    rw [hpay]
    rfl
  unfold geminiToolAgent
  rw [if_neg (by simp [hie])]
  simp only [bind, Except.bind, hexec]
  cases hft : (oracle2 (normalizeGeminiMessages messages ++ toolMsgs)).text with
  | none => simpa using hfb
  | some t =>
      have ht : pyStrip t = "" := by
        rw [hft] at hblank
        exact hblank
      simpa [ht] using hfb

/-- Claim C4, counterexample: an OpenAI loop run in which a tool was
executed (its payload is `X`) and the final model turn yields empty text
returns the empty string — not the stringified payload of the most recent
tool result — refuting the claim for the OpenAI provider loop. -/
theorem c4_counterexample :
    openaiToolAgent
      (fun msgs => if msgs.length ≤ 1
        then ⟨"", [⟨"call1", "function", "t", "\x7b\"q\": \"v\"\x7d"⟩]⟩
        else ⟨"", []⟩)
      [⟨"t", "d", .vNull, fun _ => .ok (.vStr "X")⟩]
      [.vDict (.cons "role" (.vStr "user") (.cons "content" (.vStr "hi") .nil))]
      none
      = .ok ⟨"", 2, ["", ""]⟩ ∧ ("" : String) ≠ "X" := by
  exact ⟨by decide, by decide⟩

/-- Claim C4, witness: the Gemini fallback evaluated on the weather
scenario — the model calls `web_search`, the tool returns a plain string,
the final model turn is empty, and the loop returns the JSON-wrapped
payload. -/
theorem c4_witness :
    ∃ payload,
      geminiLastPayload [toolResponsePart "web_search"
        (.vDict (.cons "text"
          (.vStr "Tokyo Weather - example.com - 18C, clear") .nil))]
        = .ok payload ∧
      geminiToolAgent
        (fun _ => ⟨none, [⟨.vStr "web_search",
          .vDict (.cons "query" (.vStr "Tokyo weather") .nil)⟩], "r1"⟩)
        (fun _ => ⟨none, [], "r2"⟩)
        [⟨"web_search", "d", webSearchParams,
          fun _ => .ok (.vStr "Tokyo Weather - example.com - 18C, clear")⟩]
        [⟨"web_search", "d", webSearchParams,
          fun _ => .ok (.vStr "Tokyo Weather - example.com - 18C, clear")⟩]
        [.vDict (.cons "role" (.vStr "user")
          (.cons "content" (.vStr "What is the weather in Tokyo?") .nil))]
        = .ok ⟨jsonDumps false payload, 2,
            [toolResponsePart "web_search"
              (.vDict (.cons "text"
                (.vStr "Tokyo Weather - example.com - 18C, clear") .nil))]⟩ := by
  exact c4_gemini_payload_fallback _ _ _ _ _ _
    (by decide) (by decide) (by trivial)

/-! ### Iteration caps and last-known-text fallbacks (claim C1) -/

/-- Helper: executing a registered tool always returns a string (executor
exceptions are absorbed by the registry). -/
theorem runtimeExecute_ok_of_known (reg : List ToolSpec) (name : String)
    (args : Value) (h : (regLookup reg name).isSome = true) :
    ∃ s, runtimeExecute reg name args = .ok s := by
  cases hl : regLookup reg name with
  | none => rw [hl] at h; simp at h
  | some spec =>
      have heq : runtimeExecute reg name args
          = (match spec.executor (orEmptyDict args) with
            | .error e =>
                .ok (jsonDumps true (.vDict (.cons "ok" (.vBool false)
                  (.cons "error" (.vStr e) .nil))))
            | .ok result =>
              match result with
              | .vDict kvs => .ok (jsonDumps true (.vDict kvs))
              | .vList xs => .ok (jsonDumps true (.vList xs))
              | r => .ok (pyStr r)) := by
        unfold runtimeExecute
        rw [hl]
      rw [heq]
      cases he : spec.executor (orEmptyDict args) with
      | error e => exact ⟨_, rfl⟩
      | ok r => cases r <;> exact ⟨_, rfl⟩

/-- Helper: the OpenAI per-round tool execution succeeds when every named
tool is registered. -/
theorem openaiExecCalls_ok_of_known (reg : List ToolSpec) :
    ∀ (calls : List OAIToolCall),
      (∀ tc ∈ calls, (regLookup reg tc.name).isSome = true) →
      ∃ ms, openaiExecCalls reg calls = .ok ms := by
  intro calls
  induction calls with
  | nil => intro _; exact ⟨[], rfl⟩
  | cons tc rest ih =>
      intro h
      obtain ⟨s, hs⟩ := runtimeExecute_ok_of_known reg tc.name (oaiCallArgs tc)
        (h tc (by simp))
      obtain ⟨ms0, hms⟩ := ih (fun tc2 h2 => h tc2 (by simp [h2]))
      refine ⟨oaiToolMsg tc s :: ms0, ?_⟩
      have heq : openaiExecCalls reg (tc :: rest)
          = (match runtimeExecute reg tc.name (oaiCallArgs tc) with
            | .error e => .error e
            | .ok result =>
              match openaiExecCalls reg rest with
              | .error e => .error e
              | .ok ms => .ok (oaiToolMsg tc result :: ms)) := rfl
      rw [heq, hs, hms]

/-- Helper: the OpenAI loop under permanently-tool-calling responses runs
its full fuel and folds the emitted contents into the final answer. -/
theorem openaiLoop_all_calls (oracle : List Value → OAIResp) (reg : List ToolSpec)
    (hcall : ∀ msgs, (oracle msgs).toolCalls ≠ [])
    (hknown : ∀ msgs, ∀ tc ∈ (oracle msgs).toolCalls,
      (regLookup reg tc.name).isSome = true) :
    ∀ (fuel : Nat) (msgs : List Value) (last : String) (emitted : List String)
      (n : Nat),
      ∃ es, openaiLoop oracle reg fuel msgs last emitted n
          = .ok ⟨lastNonEmptyOr last es, n + fuel, emitted ++ es⟩
        ∧ es.length = fuel := by
  intro fuel
  induction fuel with
  | zero =>
      intro msgs last emitted n
      refine ⟨[], ?_, rfl⟩
      unfold openaiLoop
      by_cases h : last == ""
      · have : last = "" := by simpa using h
        simp [this, lastNonEmptyOr]
      · simp [h, lastNonEmptyOr]
  | succ fuel ih =>
      intro msgs last emitted n
      have hc := hcall msgs
      have hie : (oracle msgs).toolCalls.isEmpty = false := by
        cases hx : (oracle msgs).toolCalls with
        | nil => exact absurd hx hc
        | cons a l => rfl
      obtain ⟨ms, hms⟩ := openaiExecCalls_ok_of_known reg (oracle msgs).toolCalls
        (hknown msgs)
      obtain ⟨es, hloop, hlen⟩ := ih
        ((msgs ++ [Value.vDict (.cons "role" (.vStr "assistant")
          (.cons "content" (.vStr (oracle msgs).content)
            (.cons "tool_calls" (.vList (vlistOf
              ((oracle msgs).toolCalls.map normalizeOAICall))) .nil)))]) ++ ms)
        (if (oracle msgs).content == "" then last else (oracle msgs).content)
        (emitted ++ [(oracle msgs).content]) (n + 1)
      refine ⟨(oracle msgs).content :: es, ?_, by simp [hlen]⟩
      unfold openaiLoop
      rw [if_neg (by simp [hie]), hms]
      have h1 : lastNonEmptyOr last ((oracle msgs).content :: es)
          = lastNonEmptyOr
              (if (oracle msgs).content == "" then last else (oracle msgs).content)
              es := by
        rw [lastNonEmptyOr]
      have h2 : n + 1 + fuel = n + (fuel + 1) := by omega
      exact hloop.trans (by rw [h1, h2]; simp)

/-- Helper: the Anthropic loop under permanently-tool-using responses runs
its full fuel and folds the emitted texts into the final answer. -/
theorem anthropicLoop_all_calls (oracle : List Value → AResp) (reg : List ToolSpec)
    (hcall : ∀ msgs, (oracle msgs).content.filter isToolUse ≠ []) :
    ∀ (fuel : Nat) (msgs : List Value) (last : String) (emitted : List String)
      (n : Nat),
      ∃ es, anthropicLoop oracle reg fuel msgs last emitted n
          = ⟨lastNonEmptyOr last es, n + fuel, emitted ++ es⟩
        ∧ es.length = fuel := by
  intro fuel
  induction fuel with
  | zero =>
      intro msgs last emitted n
      refine ⟨[], ?_, rfl⟩
      unfold anthropicLoop
      by_cases h : last == ""
      · have : last = "" := by simpa using h
        simp [this, lastNonEmptyOr]
      · simp [h, lastNonEmptyOr]
  | succ fuel ih =>
      intro msgs last emitted n
      have hc := hcall msgs
      have hie : ((oracle msgs).content.filter isToolUse).isEmpty = false := by
        cases hx : (oracle msgs).content.filter isToolUse with
        | nil => exact absurd hx hc
        | cons a l => rfl
      obtain ⟨es, hloop, hlen⟩ := ih
        (msgs ++ [Value.vDict (.cons "role" (.vStr "assistant")
            (.cons "content" (.vList (vlistOf
              ((oracle msgs).content.map anthropicBlockEntry))) .nil)),
          Value.vDict (.cons "role" (.vStr "user")
            (.cons "content" (.vList (vlistOf
              (anthropicResults reg (oracle msgs).content))) .nil))])
        (if anthropicEmittedText (oracle msgs).content == "" then last
         else anthropicEmittedText (oracle msgs).content)
        (emitted ++ [anthropicEmittedText (oracle msgs).content]) (n + 1)
      refine ⟨anthropicEmittedText (oracle msgs).content :: es, ?_, by simp [hlen]⟩
      unfold anthropicLoop
      rw [if_neg (by simp [hie])]
      have h1 : lastNonEmptyOr last (anthropicEmittedText (oracle msgs).content :: es)
          = lastNonEmptyOr
              (if anthropicEmittedText (oracle msgs).content == "" then last
               else anthropicEmittedText (oracle msgs).content) es := by
        rw [lastNonEmptyOr]
      have h2 : n + 1 + fuel = n + (fuel + 1) := by omega
      exact hloop.trans (by rw [h1, h2]; simp)

/-- Helper: a successful Gemini tool-agent run makes at most two model
rounds. -/
theorem geminiToolAgent_rounds_le_two (o1 o2 : List Value → GResp)
    (reg tools : List ToolSpec) (messages : List Value) (run : GRun)
    (h : geminiToolAgent o1 o2 reg tools messages = .ok run) :
    run.rounds ≤ 2 := by
  unfold geminiToolAgent at h
  by_cases hie : (o1 (normalizeGeminiMessages messages)).calls.isEmpty = true
  · rw [if_pos hie] at h
    injection h with h2
    subst h2
    exact Nat.le_succ 1
  · rw [if_neg hie] at h
    simp only [bind, Except.bind] at h
    cases hc : geminiCallsToMsgs reg tools
        (o1 (normalizeGeminiMessages messages)).calls with
    | error e => rw [hc] at h; simp at h
    | ok toolMsgs =>
        rw [hc] at h
        have hfb : ∀ resp tm (r : GRun), geminiFallback resp tm = .ok r →
            r.rounds ≤ 2 := by
          intro resp tm r hf
          unfold geminiFallback at hf
          by_cases hemp : tm.isEmpty = true
          · rw [if_pos hemp] at hf
            injection hf with h3
            subst h3
            exact Nat.le_refl _
          · rw [if_neg hemp] at hf
            simp only [bind, Except.bind] at hf
            cases hp : geminiLastPayload tm with
            | error e => rw [hp] at hf; simp at hf
            | ok payload =>
                rw [hp] at hf
                injection hf with h3
                subst h3
                exact Nat.le_refl _
        have h' : (match (o2 (normalizeGeminiMessages messages ++ toolMsgs)).text with
            | some t =>
                if (pyStrip t == "") = true then
                  geminiFallback (o1 (normalizeGeminiMessages messages)) toolMsgs
                else Except.ok ⟨pyStrip t, 2, toolMsgs⟩
            | none => geminiFallback (o1 (normalizeGeminiMessages messages)) toolMsgs)
            = Except.ok run := h
        cases hft : (o2 (normalizeGeminiMessages messages ++ toolMsgs)).text with
        | none =>
            rw [hft] at h'
            exact hfb _ _ _ h'
        | some t =>
            rw [hft] at h'
            have h'' : (if (pyStrip t == "") = true then
                  geminiFallback (o1 (normalizeGeminiMessages messages)) toolMsgs
                else Except.ok ⟨pyStrip t, 2, toolMsgs⟩) = Except.ok run := h'
            by_cases hb : (pyStrip t == "") = true
            · rw [if_pos hb] at h''
              exact hfb _ _ _ h''
            · rw [if_neg hb] at h''
              injection h'' with h2
              subst h2
              exact Nat.le_refl _

/-- Claim C1 (amended): under model responses that always contain tool
calls, the OpenAI loop performs exactly 4 completion rounds (given its tool
names resolve, since an unknown name aborts it — claim C5) and returns the
last known non-empty emitted text or the empty string; the Anthropic loop
likewise performs exactly 4 rounds with the same fallback; the Gemini loop
is not 4-bounded but 2-bounded — at most two `generate_content` rounds — and
(per the counterexample) returns a tool-payload string rather than the empty
string when no text was ever emitted. -/
theorem c1_iteration_caps :
    (∀ (oracle : List Value → OAIResp) (reg : List ToolSpec)
        (messages : List Value) (sp : Option String),
      (∀ msgs, (oracle msgs).toolCalls ≠ []) →
      (∀ msgs, ∀ tc ∈ (oracle msgs).toolCalls,
        (regLookup reg tc.name).isSome = true) →
      ∃ es, openaiToolAgent oracle reg messages sp
          = .ok ⟨lastNonEmptyOr "" es, 4, es⟩ ∧ es.length = 4) ∧
    (∀ (oracle : List Value → AResp) (reg : List ToolSpec)
        (turns : List Value),
      (∀ msgs, (oracle msgs).content.filter isToolUse ≠ []) →
      ∃ es, anthropicLoop oracle reg 4 turns "" [] 0
          = ⟨lastNonEmptyOr "" es, 4, es⟩ ∧ es.length = 4) ∧
    (∀ (o1 o2 : List Value → GResp) (reg tools : List ToolSpec)
        (messages : List Value) (run : GRun),
      geminiToolAgent o1 o2 reg tools messages = .ok run → run.rounds ≤ 2) := by
  refine ⟨?_, ?_, ?_⟩
  · intro oracle reg messages sp hcall hknown
    obtain ⟨es, hloop, hlen⟩ := openaiLoop_all_calls oracle reg hcall hknown 4
      ((match sp with
        | some s => if s == "" then []
            else [Value.vDict (.cons "role" (.vStr "system")
              (.cons "content" (.vStr s) .nil))]
        | none => []) ++ messages) "" [] 0
    refine ⟨es, ?_, hlen⟩
    unfold openaiToolAgent
    rw [hloop]
    simp
  · intro oracle reg turns hcall
    obtain ⟨es, hloop, hlen⟩ := anthropicLoop_all_calls oracle reg hcall 4
      turns "" [] 0
    refine ⟨es, ?_, hlen⟩
    rw [hloop]
    simp
  · exact geminiToolAgent_rounds_le_two

/-- Claim C1, counterexample: a Gemini run in which both model responses
contain a tool call and neither emits any text terminates after 2 rounds
returning the JSON-wrapped tool payload string — not the empty string the
claim requires when no text was ever emitted. -/
theorem c1_counterexample :
    geminiToolAgent
      (fun _ => ⟨none, [⟨.vStr "web_search",
        .vDict (.cons "query" (.vStr "x") .nil)⟩], "r1"⟩)
      (fun _ => ⟨none, [⟨.vStr "web_search", .vDict .nil⟩], "r2"⟩)
      [⟨"web_search", "d", webSearchParams, fun _ => .ok (.vStr "R")⟩]
      [⟨"web_search", "d", webSearchParams, fun _ => .ok (.vStr "R")⟩]
      [.vDict (.cons "role" (.vStr "user") (.cons "content" (.vStr "hi") .nil))]
      = .ok ⟨"\x7b\"text\": \"R\"\x7d", 2,
          [toolResponsePart "web_search"
            (.vDict (.cons "text" (.vStr "R") .nil))]⟩ ∧
    ("\x7b\"text\": \"R\"\x7d" : String) ≠ "" := by
  exact ⟨by decide, by decide⟩

/-- Claim C1, witness: a permanently tool-calling OpenAI oracle with a
registered tool makes exactly 4 rounds and falls back to the last non-empty
text. -/
theorem c1_witness :
    ∃ es, openaiToolAgent
        (fun _ => ⟨"step", [⟨"c1", "function", "t", "\x7b\x7d"⟩]⟩)
        [⟨"t", "d", .vNull, demoExec⟩]
        [.vDict (.cons "role" (.vStr "user") (.cons "content" (.vStr "hi") .nil))]
        none
        = .ok ⟨lastNonEmptyOr "" es, 4, es⟩ ∧ es.length = 4 := by
  exact c1_iteration_caps.1
    (fun _ => ⟨"step", [⟨"c1", "function", "t", "\x7b\x7d"⟩]⟩)
    [⟨"t", "d", .vNull, demoExec⟩]
    [.vDict (.cons "role" (.vStr "user") (.cons "content" (.vStr "hi") .nil))]
    none
    (fun _ => List.cons_ne_nil _ _)
    (fun msgs tc htc => by
      have h2 : tc = ⟨"c1", "function", "t", "\x7b\x7d"⟩ := by
        simpa using htc
      subst h2
      rfl)

/-! ### Tool failures and request aborts (claim C5) -/

/-- Helper: `runtime_execute` on an unregistered name raises the
unknown-tool `ValueError`. -/
theorem runtimeExecute_unknown (reg : List ToolSpec) (name : String) (args : Value)
    (h : regLookup reg name = none) :
    runtimeExecute reg name args = .error ("Unknown tool: " ++ name) := by
  simp [runtimeExecute, h]

/-- Helper: no JSON value starts with the letters `tool`, at any fuel. -/
theorem parseValue_toolHead_none (fuel : Nat) (cs : List Char) :
    parseValue fuel ('t' :: 'o' :: 'o' :: 'l' :: cs) = none := by
  cases fuel with
  | zero => rfl
  | succ f => rfl

/-- Helper: an array whose first item starts with the letters `tool` never
parses, at any fuel. -/
theorem parseArrayItems_toolHead_none (fuel : Nat) (cs : List Char) :
    parseArrayItems fuel ('t' :: 'o' :: 'o' :: 'l' :: cs) = none := by
  cases fuel with
  | zero => rfl
  | succ f =>
      unfold parseArrayItems
      rw [parseValue_toolHead_none]

/-- Helper: `[tool` opens an unparseable array, at any fuel. -/
theorem parseValue_bracketTool_none (fuel : Nat) (cs : List Char) :
    parseValue fuel ('[' :: 't' :: 'o' :: 'o' :: 'l' :: cs) = none := by
  cases fuel with
  | zero => rfl
  | succ f =>
      have h1 : parseValue (f + 1) ('[' :: 't' :: 'o' :: 'o' :: 'l' :: cs)
          = (match skipWs ('t' :: 'o' :: 'o' :: 'l' :: cs) with
             | ']' :: r => some (.vList .nil, r)
             | r => parseArrayItems f r) := rfl
      have h2 : skipWs ('t' :: 'o' :: 'o' :: 'l' :: cs)
          = 't' :: 'o' :: 'o' :: 'l' :: cs := rfl
      rw [h1, h2]
      exact parseArrayItems_toolHead_none f cs

/-- Helper: the `[tool runtime error] ...` strings are never valid JSON, so
the Gemini loop always falls back to the `\x7b"text": ...\x7d` wrapping for
them. -/
theorem jsonLoads_toolRuntimeErr_none (s : String) :
    jsonLoads ("[tool runtime error] ValueError: " ++ s) = none := by
  unfold jsonLoads
  have hdata : ("[tool runtime error] ValueError: " ++ s).data
      = '[' :: 't' :: 'o' :: 'o' :: 'l' ::
          (" runtime error] ValueError: ".data ++ s.data) := by
    rw [String.data_append]
    rfl
  rw [hdata]
  have hsk : skipWs ('[' :: 't' :: 'o' :: 'o' :: 'l' ::
      (" runtime error] ValueError: ".data ++ s.data))
      = '[' :: 't' :: 'o' :: 'o' :: 'l' ::
          (" runtime error] ValueError: ".data ++ s.data) := rfl
  rw [hsk, parseValue_bracketTool_none]

/-- Claim C5 (amended): a failure while executing a requested tool call is
captured without aborting the request for the Anthropic and Gemini loops —
the Anthropic loop turns even an unknown-tool `ValueError` into a normal
`tool_result` entry carrying the `[tool error]` string and its agent only
ever fails on malformed incoming messages, never on tool execution; the
Gemini loop turns the unknown-tool `ValueError` into a normal tool-response
message carrying the `[tool runtime error]` string — but NOT for the OpenAI
loop, where (per the counterexample) the unknown-tool `ValueError` escapes
the unprotected `runtime_execute` call and aborts the request. -/
theorem c5_failures_captured_not_openai :
    (∀ (reg : List ToolSpec) (id name input : Value),
      regLookup reg (anthToolName name) = none →
      anthropicToolResult reg id name input
        = .vDict (.cons "type" (.vStr "tool_result") (.cons "tool_use_id" id
            (.cons "content" (.vStr ("[tool error] ValueError: "
              ++ ("Unknown tool: " ++ anthToolName name))) .nil)))) ∧
    (∀ (oracle : List Value → AResp) (reg : List ToolSpec)
        (messages : List Value) (sp : Option String)
        (texts turns : List Value) (joined : String),
      collectSystemTexts messages = .ok (texts, turns) →
      pyJoinStrsNL texts = .ok joined →
      anthropicToolAgent oracle reg messages sp
        = .ok (anthropicLoop oracle reg 4 turns "" [] 0)) ∧
    (∀ (reg tools : List ToolSpec) (fname : String) (args : Value) (margs : VDict),
      tools.find? (fun t => t.name == pyStrip fname) = none →
      regLookup reg (pyStrip fname) = none →
      pyToDict (orEmptyDict args) = .ok margs →
      geminiExecCall reg tools ⟨.vStr fname, args⟩
        = .ok (toolResponsePart (pyStrip fname)
            (.vDict (.cons "text" (.vStr ("[tool runtime error] ValueError: "
              ++ ("Unknown tool: " ++ pyStrip fname))) .nil)))) := by
  refine ⟨?_, ?_, ?_⟩
  · intro reg id name input hnone
    have hre : runtimeExecute reg (anthToolName name) (orEmptyDict input)
        = .error ("Unknown tool: " ++ anthToolName name) :=
      runtimeExecute_unknown reg (anthToolName name) (orEmptyDict input) hnone
    have heq : anthropicToolResult reg id name input
        = .vDict (.cons "type" (.vStr "tool_result") (.cons "tool_use_id" id
            (.cons "content" (.vStr
              (match runtimeExecute reg (anthToolName name) (orEmptyDict input) with
               | .ok s => s
               | .error e => "[tool error] ValueError: " ++ e)) .nil))) := rfl
    rw [heq, hre]
  · intro oracle reg messages sp texts turns joined hc hj
    simp only [anthropicToolAgent, bind, Except.bind, hc, hj]
  · intro reg tools fname args margs hfind hreg hm
    have hre : runtimeExecute reg (pyStrip fname) (.vDict margs)
        = .error ("Unknown tool: " ++ pyStrip fname) :=
      runtimeExecute_unknown reg (pyStrip fname) (.vDict margs) hreg
    have hjs := jsonLoads_toolRuntimeErr_none ("Unknown tool: " ++ pyStrip fname)
    simp only [geminiExecCall, bind, Except.bind, geminiCallName, hfind,
      geminiMapArgs, hm, hre, hjs]

/-- Claim C5, counterexample: the OpenAI loop, asked by the model to call
the unregistered tool `nope`, aborts the whole request with the raised
`ValueError` instead of feeding an error payload back to the model. -/
theorem c5_counterexample :
    openaiToolAgent
      (fun _ => ⟨"", [⟨"c1", "function", "nope", "\x7b\x7d"⟩]⟩)
      [⟨"web_search", "d", webSearchParams, demoExec⟩]
      [.vDict (.cons "role" (.vStr "user") (.cons "content" (.vStr "hi") .nil))]
      none
      = .error "Unknown tool: nope" := by
  decide

/-- Claim C5, witness: the three captured-failure statements at concrete
inputs — an unknown Anthropic `tool_use`, an empty Anthropic conversation,
and an unknown Gemini function call. -/
theorem c5_witness :
    anthropicToolResult [] (.vStr "id1") (.vStr "nope") (.vDict .nil)
      = .vDict (.cons "type" (.vStr "tool_result")
          (.cons "tool_use_id" (.vStr "id1")
            (.cons "content" (.vStr ("[tool error] ValueError: "
              ++ ("Unknown tool: " ++ anthToolName (.vStr "nope")))) .nil))) ∧
    anthropicToolAgent (fun _ => ⟨[]⟩) [] [] none
      = .ok (anthropicLoop (fun _ => ⟨[]⟩) [] 4 [] "" [] 0) ∧
    geminiExecCall [] [] ⟨.vStr "nope", .vDict .nil⟩
      = .ok (toolResponsePart (pyStrip "nope")
          (.vDict (.cons "text" (.vStr ("[tool runtime error] ValueError: "
            ++ ("Unknown tool: " ++ pyStrip "nope"))) .nil))) := by
  refine ⟨?_, ?_, ?_⟩
  · exact c5_failures_captured_not_openai.1 [] (.vStr "id1") (.vStr "nope")
      (.vDict .nil) rfl
  · exact c5_failures_captured_not_openai.2.1 (fun _ => ⟨[]⟩) [] [] none [] [] ""
      rfl rfl
  · exact c5_failures_captured_not_openai.2.2 [] [] "nope" (.vDict .nil) .nil
      rfl rfl rfl

end Gateway
